import Mathlib

/-
Verification development for the sudokuCSP repository (src/Sudoku.go), a Go
port of Peter Norvig's Sudoku.java.  The Go program is shallowly embedded:

* a puzzle grid ([]int of length 81 in Go) is a `List Nat`; a cell holds a
  bitset over the nine digits, bit (d-1) standing for digit d;
* the in-place mutating propagation routines `fill`, `eliminate`,
  `arcConsistent`, `dualConsistent` are embedded as one fuel-indexed
  state-passing function `prop` over a defunctionalised command type `PCmd`
  (one constructor per Go function, plus one per inner loop).  Each call
  returns the mutated grid together with the Go boolean/nil result; `none`
  means the fuel ran out (which never happens for the fuel used, see
  `prop_total`).  Go's `grid[s] -= d` is Nat subtraction, exact here because
  `d` is always a single-bit digit mask with the bit present (guarded);
* `search` together with the caller-allocated `gridpool` of `solveList` is
  the fuel-indexed function `srch`; `none` marks fuel exhaustion or an
  out-of-bounds `gridpool[level]` access (Go would panic there);
* slice reads are `List.getD _ _ 0` and writes are `List.set` (all indices
  that actually occur are in bounds; Go would panic otherwise).
-/

namespace SudokuCSP

/-- Go `cross`: all squares in the intersection of these rows and cols. -/
def cross (rows cols : List Nat) : List Nat :=
  rows.flatMap (fun r => cols.map (fun c => 9 * r + c))

/-- Go global `ROWS` (also `COLS`). -/
def ROWS : List Nat := [0, 1, 2, 3, 4, 5, 6, 7, 8]

/-- Go global `COLS = ROWS`. -/
def COLS : List Nat := ROWS

/-- Go global `SQUARES`: the numbers from 0 to N*N-1. -/
def SQUARES : List Nat := List.range 81

/-- Go global `BLOCKS`. -/
def BLOCKS : List (List Nat) := [[0, 1, 2], [3, 4, 5], [6, 7, 8]]

/-- Go global `ALL_UNITS`: the 27 units (9 rows, 9 columns, 9 blocks),
built in the order of the `init` function. -/
def ALL_UNITS : List (List Nat) :=
  ROWS.map (fun r => cross [r] COLS) ++
  COLS.map (fun c => cross ROWS [c]) ++
  BLOCKS.flatMap (fun rb => BLOCKS.map (fun cb => cross rb cb))

/-- Go `member`: true iff item is an element of array. -/
def member (item : Nat) (array : List Nat) : Bool :=
  array.any (fun x => x == item)

/-- Go global `UNITS[s]`: the 3 units of square s, in `ALL_UNITS` order
(the `init` loop keeps the first three units containing s). -/
def UNITS (s : Nat) : List (List Nat) :=
  ALL_UNITS.filter (fun u => member s u)

/-- Go global `PEERS[s]`: the 20 other squares sharing a unit with s,
deduplicated in first-occurrence order exactly as the `init` loop does. -/
def PEERS (s : Nat) : List Nat :=
  (UNITS s).foldl
    (fun acc u =>
      u.foldl (fun acc2 s2 => if s2 ≠ s ∧ member s2 acc2 = false then acc2 ++ [s2] else acc2) acc)
    []

/-- The precomputed `PEERS` table (Go keeps `PEERS [N * N][20]int`, filled
once by `init`; `PEERS_T_eq` below proves this literal is exactly what the
`init` loop computes for every square). -/
def PEERS_T : List (List Nat) := [[1, 2, 3, 4, 5, 6, 7, 8, 9, 18, 27, 36, 45, 54, 63, 72, 10, 11, 19, 20], [0, 2, 3, 4, 5, 6, 7, 8, 10, 19, 28, 37, 46, 55, 64, 73, 9, 11, 18, 20], [0, 1, 3, 4, 5, 6, 7, 8, 11, 20, 29, 38, 47, 56, 65, 74, 9, 10, 18, 19], [0, 1, 2, 4, 5, 6, 7, 8, 12, 21, 30, 39, 48, 57, 66, 75, 13, 14, 22, 23], [0, 1, 2, 3, 5, 6, 7, 8, 13, 22, 31, 40, 49, 58, 67, 76, 12, 14, 21, 23], [0, 1, 2, 3, 4, 6, 7, 8, 14, 23, 32, 41, 50, 59, 68, 77, 12, 13, 21, 22], [0, 1, 2, 3, 4, 5, 7, 8, 15, 24, 33, 42, 51, 60, 69, 78, 16, 17, 25, 26], [0, 1, 2, 3, 4, 5, 6, 8, 16, 25, 34, 43, 52, 61, 70, 79, 15, 17, 24, 26], [0, 1, 2, 3, 4, 5, 6, 7, 17, 26, 35, 44, 53, 62, 71, 80, 15, 16, 24, 25], [10, 11, 12, 13, 14, 15, 16, 17, 0, 18, 27, 36, 45, 54, 63, 72, 1, 2, 19, 20], [9, 11, 12, 13, 14, 15, 16, 17, 1, 19, 28, 37, 46, 55, 64, 73, 0, 2, 18, 20], [9, 10, 12, 13, 14, 15, 16, 17, 2, 20, 29, 38, 47, 56, 65, 74, 0, 1, 18, 19], [9, 10, 11, 13, 14, 15, 16, 17, 3, 21, 30, 39, 48, 57, 66, 75, 4, 5, 22, 23], [9, 10, 11, 12, 14, 15, 16, 17, 4, 22, 31, 40, 49, 58, 67, 76, 3, 5, 21, 23], [9, 10, 11, 12, 13, 15, 16, 17, 5, 23, 32, 41, 50, 59, 68, 77, 3, 4, 21, 22], [9, 10, 11, 12, 13, 14, 16, 17, 6, 24, 33, 42, 51, 60, 69, 78, 7, 8, 25, 26], [9, 10, 11, 12, 13, 14, 15, 17, 7, 25, 34, 43, 52, 61, 70, 79, 6, 8, 24, 26], [9, 10, 11, 12, 13, 14, 15, 16, 8, 26, 35, 44, 53, 62, 71, 80, 6, 7, 24, 25], [19, 20, 21, 22, 23, 24, 25, 26, 0, 9, 27, 36, 45, 54, 63, 72, 1, 2, 10, 11], [18, 20, 21, 22, 23, 24, 25, 26, 1, 10, 28, 37, 46, 55, 64, 73, 0, 2, 9, 11], [18, 19, 21, 22, 23, 24, 25, 26, 2, 11, 29, 38, 47, 56, 65, 74, 0, 1, 9, 10], [18, 19, 20, 22, 23, 24, 25, 26, 3, 12, 30, 39, 48, 57, 66, 75, 4, 5, 13, 14], [18, 19, 20, 21, 23, 24, 25, 26, 4, 13, 31, 40, 49, 58, 67, 76, 3, 5, 12, 14], [18, 19, 20, 21, 22, 24, 25, 26, 5, 14, 32, 41, 50, 59, 68, 77, 3, 4, 12, 13], [18, 19, 20, 21, 22, 23, 25, 26, 6, 15, 33, 42, 51, 60, 69, 78, 7, 8, 16, 17], [18, 19, 20, 21, 22, 23, 24, 26, 7, 16, 34, 43, 52, 61, 70, 79, 6, 8, 15, 17], [18, 19, 20, 21, 22, 23, 24, 25, 8, 17, 35, 44, 53, 62, 71, 80, 6, 7, 15, 16], [28, 29, 30, 31, 32, 33, 34, 35, 0, 9, 18, 36, 45, 54, 63, 72, 37, 38, 46, 47], [27, 29, 30, 31, 32, 33, 34, 35, 1, 10, 19, 37, 46, 55, 64, 73, 36, 38, 45, 47], [27, 28, 30, 31, 32, 33, 34, 35, 2, 11, 20, 38, 47, 56, 65, 74, 36, 37, 45, 46], [27, 28, 29, 31, 32, 33, 34, 35, 3, 12, 21, 39, 48, 57, 66, 75, 40, 41, 49, 50], [27, 28, 29, 30, 32, 33, 34, 35, 4, 13, 22, 40, 49, 58, 67, 76, 39, 41, 48, 50], [27, 28, 29, 30, 31, 33, 34, 35, 5, 14, 23, 41, 50, 59, 68, 77, 39, 40, 48, 49], [27, 28, 29, 30, 31, 32, 34, 35, 6, 15, 24, 42, 51, 60, 69, 78, 43, 44, 52, 53], [27, 28, 29, 30, 31, 32, 33, 35, 7, 16, 25, 43, 52, 61, 70, 79, 42, 44, 51, 53], [27, 28, 29, 30, 31, 32, 33, 34, 8, 17, 26, 44, 53, 62, 71, 80, 42, 43, 51, 52], [37, 38, 39, 40, 41, 42, 43, 44, 0, 9, 18, 27, 45, 54, 63, 72, 28, 29, 46, 47], [36, 38, 39, 40, 41, 42, 43, 44, 1, 10, 19, 28, 46, 55, 64, 73, 27, 29, 45, 47], [36, 37, 39, 40, 41, 42, 43, 44, 2, 11, 20, 29, 47, 56, 65, 74, 27, 28, 45, 46], [36, 37, 38, 40, 41, 42, 43, 44, 3, 12, 21, 30, 48, 57, 66, 75, 31, 32, 49, 50], [36, 37, 38, 39, 41, 42, 43, 44, 4, 13, 22, 31, 49, 58, 67, 76, 30, 32, 48, 50], [36, 37, 38, 39, 40, 42, 43, 44, 5, 14, 23, 32, 50, 59, 68, 77, 30, 31, 48, 49], [36, 37, 38, 39, 40, 41, 43, 44, 6, 15, 24, 33, 51, 60, 69, 78, 34, 35, 52, 53], [36, 37, 38, 39, 40, 41, 42, 44, 7, 16, 25, 34, 52, 61, 70, 79, 33, 35, 51, 53], [36, 37, 38, 39, 40, 41, 42, 43, 8, 17, 26, 35, 53, 62, 71, 80, 33, 34, 51, 52], [46, 47, 48, 49, 50, 51, 52, 53, 0, 9, 18, 27, 36, 54, 63, 72, 28, 29, 37, 38], [45, 47, 48, 49, 50, 51, 52, 53, 1, 10, 19, 28, 37, 55, 64, 73, 27, 29, 36, 38], [45, 46, 48, 49, 50, 51, 52, 53, 2, 11, 20, 29, 38, 56, 65, 74, 27, 28, 36, 37], [45, 46, 47, 49, 50, 51, 52, 53, 3, 12, 21, 30, 39, 57, 66, 75, 31, 32, 40, 41], [45, 46, 47, 48, 50, 51, 52, 53, 4, 13, 22, 31, 40, 58, 67, 76, 30, 32, 39, 41], [45, 46, 47, 48, 49, 51, 52, 53, 5, 14, 23, 32, 41, 59, 68, 77, 30, 31, 39, 40], [45, 46, 47, 48, 49, 50, 52, 53, 6, 15, 24, 33, 42, 60, 69, 78, 34, 35, 43, 44], [45, 46, 47, 48, 49, 50, 51, 53, 7, 16, 25, 34, 43, 61, 70, 79, 33, 35, 42, 44], [45, 46, 47, 48, 49, 50, 51, 52, 8, 17, 26, 35, 44, 62, 71, 80, 33, 34, 42, 43], [55, 56, 57, 58, 59, 60, 61, 62, 0, 9, 18, 27, 36, 45, 63, 72, 64, 65, 73, 74], [54, 56, 57, 58, 59, 60, 61, 62, 1, 10, 19, 28, 37, 46, 64, 73, 63, 65, 72, 74], [54, 55, 57, 58, 59, 60, 61, 62, 2, 11, 20, 29, 38, 47, 65, 74, 63, 64, 72, 73], [54, 55, 56, 58, 59, 60, 61, 62, 3, 12, 21, 30, 39, 48, 66, 75, 67, 68, 76, 77], [54, 55, 56, 57, 59, 60, 61, 62, 4, 13, 22, 31, 40, 49, 67, 76, 66, 68, 75, 77], [54, 55, 56, 57, 58, 60, 61, 62, 5, 14, 23, 32, 41, 50, 68, 77, 66, 67, 75, 76], [54, 55, 56, 57, 58, 59, 61, 62, 6, 15, 24, 33, 42, 51, 69, 78, 70, 71, 79, 80], [54, 55, 56, 57, 58, 59, 60, 62, 7, 16, 25, 34, 43, 52, 70, 79, 69, 71, 78, 80], [54, 55, 56, 57, 58, 59, 60, 61, 8, 17, 26, 35, 44, 53, 71, 80, 69, 70, 78, 79], [64, 65, 66, 67, 68, 69, 70, 71, 0, 9, 18, 27, 36, 45, 54, 72, 55, 56, 73, 74], [63, 65, 66, 67, 68, 69, 70, 71, 1, 10, 19, 28, 37, 46, 55, 73, 54, 56, 72, 74], [63, 64, 66, 67, 68, 69, 70, 71, 2, 11, 20, 29, 38, 47, 56, 74, 54, 55, 72, 73], [63, 64, 65, 67, 68, 69, 70, 71, 3, 12, 21, 30, 39, 48, 57, 75, 58, 59, 76, 77], [63, 64, 65, 66, 68, 69, 70, 71, 4, 13, 22, 31, 40, 49, 58, 76, 57, 59, 75, 77], [63, 64, 65, 66, 67, 69, 70, 71, 5, 14, 23, 32, 41, 50, 59, 77, 57, 58, 75, 76], [63, 64, 65, 66, 67, 68, 70, 71, 6, 15, 24, 33, 42, 51, 60, 78, 61, 62, 79, 80], [63, 64, 65, 66, 67, 68, 69, 71, 7, 16, 25, 34, 43, 52, 61, 79, 60, 62, 78, 80], [63, 64, 65, 66, 67, 68, 69, 70, 8, 17, 26, 35, 44, 53, 62, 80, 60, 61, 78, 79], [73, 74, 75, 76, 77, 78, 79, 80, 0, 9, 18, 27, 36, 45, 54, 63, 55, 56, 64, 65], [72, 74, 75, 76, 77, 78, 79, 80, 1, 10, 19, 28, 37, 46, 55, 64, 54, 56, 63, 65], [72, 73, 75, 76, 77, 78, 79, 80, 2, 11, 20, 29, 38, 47, 56, 65, 54, 55, 63, 64], [72, 73, 74, 76, 77, 78, 79, 80, 3, 12, 21, 30, 39, 48, 57, 66, 58, 59, 67, 68], [72, 73, 74, 75, 77, 78, 79, 80, 4, 13, 22, 31, 40, 49, 58, 67, 57, 59, 66, 68], [72, 73, 74, 75, 76, 78, 79, 80, 5, 14, 23, 32, 41, 50, 59, 68, 57, 58, 66, 67], [72, 73, 74, 75, 76, 77, 79, 80, 6, 15, 24, 33, 42, 51, 60, 69, 61, 62, 70, 71], [72, 73, 74, 75, 76, 77, 78, 80, 7, 16, 25, 34, 43, 52, 61, 70, 60, 62, 69, 71], [72, 73, 74, 75, 76, 77, 78, 79, 8, 17, 26, 35, 44, 53, 62, 71, 60, 61, 69, 70]]

/-- The precomputed `UNITS` table (Go keeps `UNITS [N * N][3][N]int`,
filled once by `init`; `UNITS_T_eq` below proves this literal is exactly
what the `init` loop computes for every square). -/
def UNITS_T : List (List (List Nat)) := [[[0, 1, 2, 3, 4, 5, 6, 7, 8], [0, 9, 18, 27, 36, 45, 54, 63, 72], [0, 1, 2, 9, 10, 11, 18, 19, 20]], [[0, 1, 2, 3, 4, 5, 6, 7, 8], [1, 10, 19, 28, 37, 46, 55, 64, 73], [0, 1, 2, 9, 10, 11, 18, 19, 20]], [[0, 1, 2, 3, 4, 5, 6, 7, 8], [2, 11, 20, 29, 38, 47, 56, 65, 74], [0, 1, 2, 9, 10, 11, 18, 19, 20]], [[0, 1, 2, 3, 4, 5, 6, 7, 8], [3, 12, 21, 30, 39, 48, 57, 66, 75], [3, 4, 5, 12, 13, 14, 21, 22, 23]], [[0, 1, 2, 3, 4, 5, 6, 7, 8], [4, 13, 22, 31, 40, 49, 58, 67, 76], [3, 4, 5, 12, 13, 14, 21, 22, 23]], [[0, 1, 2, 3, 4, 5, 6, 7, 8], [5, 14, 23, 32, 41, 50, 59, 68, 77], [3, 4, 5, 12, 13, 14, 21, 22, 23]], [[0, 1, 2, 3, 4, 5, 6, 7, 8], [6, 15, 24, 33, 42, 51, 60, 69, 78], [6, 7, 8, 15, 16, 17, 24, 25, 26]], [[0, 1, 2, 3, 4, 5, 6, 7, 8], [7, 16, 25, 34, 43, 52, 61, 70, 79], [6, 7, 8, 15, 16, 17, 24, 25, 26]], [[0, 1, 2, 3, 4, 5, 6, 7, 8], [8, 17, 26, 35, 44, 53, 62, 71, 80], [6, 7, 8, 15, 16, 17, 24, 25, 26]], [[9, 10, 11, 12, 13, 14, 15, 16, 17], [0, 9, 18, 27, 36, 45, 54, 63, 72], [0, 1, 2, 9, 10, 11, 18, 19, 20]], [[9, 10, 11, 12, 13, 14, 15, 16, 17], [1, 10, 19, 28, 37, 46, 55, 64, 73], [0, 1, 2, 9, 10, 11, 18, 19, 20]], [[9, 10, 11, 12, 13, 14, 15, 16, 17], [2, 11, 20, 29, 38, 47, 56, 65, 74], [0, 1, 2, 9, 10, 11, 18, 19, 20]], [[9, 10, 11, 12, 13, 14, 15, 16, 17], [3, 12, 21, 30, 39, 48, 57, 66, 75], [3, 4, 5, 12, 13, 14, 21, 22, 23]], [[9, 10, 11, 12, 13, 14, 15, 16, 17], [4, 13, 22, 31, 40, 49, 58, 67, 76], [3, 4, 5, 12, 13, 14, 21, 22, 23]], [[9, 10, 11, 12, 13, 14, 15, 16, 17], [5, 14, 23, 32, 41, 50, 59, 68, 77], [3, 4, 5, 12, 13, 14, 21, 22, 23]], [[9, 10, 11, 12, 13, 14, 15, 16, 17], [6, 15, 24, 33, 42, 51, 60, 69, 78], [6, 7, 8, 15, 16, 17, 24, 25, 26]], [[9, 10, 11, 12, 13, 14, 15, 16, 17], [7, 16, 25, 34, 43, 52, 61, 70, 79], [6, 7, 8, 15, 16, 17, 24, 25, 26]], [[9, 10, 11, 12, 13, 14, 15, 16, 17], [8, 17, 26, 35, 44, 53, 62, 71, 80], [6, 7, 8, 15, 16, 17, 24, 25, 26]], [[18, 19, 20, 21, 22, 23, 24, 25, 26], [0, 9, 18, 27, 36, 45, 54, 63, 72], [0, 1, 2, 9, 10, 11, 18, 19, 20]], [[18, 19, 20, 21, 22, 23, 24, 25, 26], [1, 10, 19, 28, 37, 46, 55, 64, 73], [0, 1, 2, 9, 10, 11, 18, 19, 20]], [[18, 19, 20, 21, 22, 23, 24, 25, 26], [2, 11, 20, 29, 38, 47, 56, 65, 74], [0, 1, 2, 9, 10, 11, 18, 19, 20]], [[18, 19, 20, 21, 22, 23, 24, 25, 26], [3, 12, 21, 30, 39, 48, 57, 66, 75], [3, 4, 5, 12, 13, 14, 21, 22, 23]], [[18, 19, 20, 21, 22, 23, 24, 25, 26], [4, 13, 22, 31, 40, 49, 58, 67, 76], [3, 4, 5, 12, 13, 14, 21, 22, 23]], [[18, 19, 20, 21, 22, 23, 24, 25, 26], [5, 14, 23, 32, 41, 50, 59, 68, 77], [3, 4, 5, 12, 13, 14, 21, 22, 23]], [[18, 19, 20, 21, 22, 23, 24, 25, 26], [6, 15, 24, 33, 42, 51, 60, 69, 78], [6, 7, 8, 15, 16, 17, 24, 25, 26]], [[18, 19, 20, 21, 22, 23, 24, 25, 26], [7, 16, 25, 34, 43, 52, 61, 70, 79], [6, 7, 8, 15, 16, 17, 24, 25, 26]], [[18, 19, 20, 21, 22, 23, 24, 25, 26], [8, 17, 26, 35, 44, 53, 62, 71, 80], [6, 7, 8, 15, 16, 17, 24, 25, 26]], [[27, 28, 29, 30, 31, 32, 33, 34, 35], [0, 9, 18, 27, 36, 45, 54, 63, 72], [27, 28, 29, 36, 37, 38, 45, 46, 47]], [[27, 28, 29, 30, 31, 32, 33, 34, 35], [1, 10, 19, 28, 37, 46, 55, 64, 73], [27, 28, 29, 36, 37, 38, 45, 46, 47]], [[27, 28, 29, 30, 31, 32, 33, 34, 35], [2, 11, 20, 29, 38, 47, 56, 65, 74], [27, 28, 29, 36, 37, 38, 45, 46, 47]], [[27, 28, 29, 30, 31, 32, 33, 34, 35], [3, 12, 21, 30, 39, 48, 57, 66, 75], [30, 31, 32, 39, 40, 41, 48, 49, 50]], [[27, 28, 29, 30, 31, 32, 33, 34, 35], [4, 13, 22, 31, 40, 49, 58, 67, 76], [30, 31, 32, 39, 40, 41, 48, 49, 50]], [[27, 28, 29, 30, 31, 32, 33, 34, 35], [5, 14, 23, 32, 41, 50, 59, 68, 77], [30, 31, 32, 39, 40, 41, 48, 49, 50]], [[27, 28, 29, 30, 31, 32, 33, 34, 35], [6, 15, 24, 33, 42, 51, 60, 69, 78], [33, 34, 35, 42, 43, 44, 51, 52, 53]], [[27, 28, 29, 30, 31, 32, 33, 34, 35], [7, 16, 25, 34, 43, 52, 61, 70, 79], [33, 34, 35, 42, 43, 44, 51, 52, 53]], [[27, 28, 29, 30, 31, 32, 33, 34, 35], [8, 17, 26, 35, 44, 53, 62, 71, 80], [33, 34, 35, 42, 43, 44, 51, 52, 53]], [[36, 37, 38, 39, 40, 41, 42, 43, 44], [0, 9, 18, 27, 36, 45, 54, 63, 72], [27, 28, 29, 36, 37, 38, 45, 46, 47]], [[36, 37, 38, 39, 40, 41, 42, 43, 44], [1, 10, 19, 28, 37, 46, 55, 64, 73], [27, 28, 29, 36, 37, 38, 45, 46, 47]], [[36, 37, 38, 39, 40, 41, 42, 43, 44], [2, 11, 20, 29, 38, 47, 56, 65, 74], [27, 28, 29, 36, 37, 38, 45, 46, 47]], [[36, 37, 38, 39, 40, 41, 42, 43, 44], [3, 12, 21, 30, 39, 48, 57, 66, 75], [30, 31, 32, 39, 40, 41, 48, 49, 50]], [[36, 37, 38, 39, 40, 41, 42, 43, 44], [4, 13, 22, 31, 40, 49, 58, 67, 76], [30, 31, 32, 39, 40, 41, 48, 49, 50]], [[36, 37, 38, 39, 40, 41, 42, 43, 44], [5, 14, 23, 32, 41, 50, 59, 68, 77], [30, 31, 32, 39, 40, 41, 48, 49, 50]], [[36, 37, 38, 39, 40, 41, 42, 43, 44], [6, 15, 24, 33, 42, 51, 60, 69, 78], [33, 34, 35, 42, 43, 44, 51, 52, 53]], [[36, 37, 38, 39, 40, 41, 42, 43, 44], [7, 16, 25, 34, 43, 52, 61, 70, 79], [33, 34, 35, 42, 43, 44, 51, 52, 53]], [[36, 37, 38, 39, 40, 41, 42, 43, 44], [8, 17, 26, 35, 44, 53, 62, 71, 80], [33, 34, 35, 42, 43, 44, 51, 52, 53]], [[45, 46, 47, 48, 49, 50, 51, 52, 53], [0, 9, 18, 27, 36, 45, 54, 63, 72], [27, 28, 29, 36, 37, 38, 45, 46, 47]], [[45, 46, 47, 48, 49, 50, 51, 52, 53], [1, 10, 19, 28, 37, 46, 55, 64, 73], [27, 28, 29, 36, 37, 38, 45, 46, 47]], [[45, 46, 47, 48, 49, 50, 51, 52, 53], [2, 11, 20, 29, 38, 47, 56, 65, 74], [27, 28, 29, 36, 37, 38, 45, 46, 47]], [[45, 46, 47, 48, 49, 50, 51, 52, 53], [3, 12, 21, 30, 39, 48, 57, 66, 75], [30, 31, 32, 39, 40, 41, 48, 49, 50]], [[45, 46, 47, 48, 49, 50, 51, 52, 53], [4, 13, 22, 31, 40, 49, 58, 67, 76], [30, 31, 32, 39, 40, 41, 48, 49, 50]], [[45, 46, 47, 48, 49, 50, 51, 52, 53], [5, 14, 23, 32, 41, 50, 59, 68, 77], [30, 31, 32, 39, 40, 41, 48, 49, 50]], [[45, 46, 47, 48, 49, 50, 51, 52, 53], [6, 15, 24, 33, 42, 51, 60, 69, 78], [33, 34, 35, 42, 43, 44, 51, 52, 53]], [[45, 46, 47, 48, 49, 50, 51, 52, 53], [7, 16, 25, 34, 43, 52, 61, 70, 79], [33, 34, 35, 42, 43, 44, 51, 52, 53]], [[45, 46, 47, 48, 49, 50, 51, 52, 53], [8, 17, 26, 35, 44, 53, 62, 71, 80], [33, 34, 35, 42, 43, 44, 51, 52, 53]], [[54, 55, 56, 57, 58, 59, 60, 61, 62], [0, 9, 18, 27, 36, 45, 54, 63, 72], [54, 55, 56, 63, 64, 65, 72, 73, 74]], [[54, 55, 56, 57, 58, 59, 60, 61, 62], [1, 10, 19, 28, 37, 46, 55, 64, 73], [54, 55, 56, 63, 64, 65, 72, 73, 74]], [[54, 55, 56, 57, 58, 59, 60, 61, 62], [2, 11, 20, 29, 38, 47, 56, 65, 74], [54, 55, 56, 63, 64, 65, 72, 73, 74]], [[54, 55, 56, 57, 58, 59, 60, 61, 62], [3, 12, 21, 30, 39, 48, 57, 66, 75], [57, 58, 59, 66, 67, 68, 75, 76, 77]], [[54, 55, 56, 57, 58, 59, 60, 61, 62], [4, 13, 22, 31, 40, 49, 58, 67, 76], [57, 58, 59, 66, 67, 68, 75, 76, 77]], [[54, 55, 56, 57, 58, 59, 60, 61, 62], [5, 14, 23, 32, 41, 50, 59, 68, 77], [57, 58, 59, 66, 67, 68, 75, 76, 77]], [[54, 55, 56, 57, 58, 59, 60, 61, 62], [6, 15, 24, 33, 42, 51, 60, 69, 78], [60, 61, 62, 69, 70, 71, 78, 79, 80]], [[54, 55, 56, 57, 58, 59, 60, 61, 62], [7, 16, 25, 34, 43, 52, 61, 70, 79], [60, 61, 62, 69, 70, 71, 78, 79, 80]], [[54, 55, 56, 57, 58, 59, 60, 61, 62], [8, 17, 26, 35, 44, 53, 62, 71, 80], [60, 61, 62, 69, 70, 71, 78, 79, 80]], [[63, 64, 65, 66, 67, 68, 69, 70, 71], [0, 9, 18, 27, 36, 45, 54, 63, 72], [54, 55, 56, 63, 64, 65, 72, 73, 74]], [[63, 64, 65, 66, 67, 68, 69, 70, 71], [1, 10, 19, 28, 37, 46, 55, 64, 73], [54, 55, 56, 63, 64, 65, 72, 73, 74]], [[63, 64, 65, 66, 67, 68, 69, 70, 71], [2, 11, 20, 29, 38, 47, 56, 65, 74], [54, 55, 56, 63, 64, 65, 72, 73, 74]], [[63, 64, 65, 66, 67, 68, 69, 70, 71], [3, 12, 21, 30, 39, 48, 57, 66, 75], [57, 58, 59, 66, 67, 68, 75, 76, 77]], [[63, 64, 65, 66, 67, 68, 69, 70, 71], [4, 13, 22, 31, 40, 49, 58, 67, 76], [57, 58, 59, 66, 67, 68, 75, 76, 77]], [[63, 64, 65, 66, 67, 68, 69, 70, 71], [5, 14, 23, 32, 41, 50, 59, 68, 77], [57, 58, 59, 66, 67, 68, 75, 76, 77]], [[63, 64, 65, 66, 67, 68, 69, 70, 71], [6, 15, 24, 33, 42, 51, 60, 69, 78], [60, 61, 62, 69, 70, 71, 78, 79, 80]], [[63, 64, 65, 66, 67, 68, 69, 70, 71], [7, 16, 25, 34, 43, 52, 61, 70, 79], [60, 61, 62, 69, 70, 71, 78, 79, 80]], [[63, 64, 65, 66, 67, 68, 69, 70, 71], [8, 17, 26, 35, 44, 53, 62, 71, 80], [60, 61, 62, 69, 70, 71, 78, 79, 80]], [[72, 73, 74, 75, 76, 77, 78, 79, 80], [0, 9, 18, 27, 36, 45, 54, 63, 72], [54, 55, 56, 63, 64, 65, 72, 73, 74]], [[72, 73, 74, 75, 76, 77, 78, 79, 80], [1, 10, 19, 28, 37, 46, 55, 64, 73], [54, 55, 56, 63, 64, 65, 72, 73, 74]], [[72, 73, 74, 75, 76, 77, 78, 79, 80], [2, 11, 20, 29, 38, 47, 56, 65, 74], [54, 55, 56, 63, 64, 65, 72, 73, 74]], [[72, 73, 74, 75, 76, 77, 78, 79, 80], [3, 12, 21, 30, 39, 48, 57, 66, 75], [57, 58, 59, 66, 67, 68, 75, 76, 77]], [[72, 73, 74, 75, 76, 77, 78, 79, 80], [4, 13, 22, 31, 40, 49, 58, 67, 76], [57, 58, 59, 66, 67, 68, 75, 76, 77]], [[72, 73, 74, 75, 76, 77, 78, 79, 80], [5, 14, 23, 32, 41, 50, 59, 68, 77], [57, 58, 59, 66, 67, 68, 75, 76, 77]], [[72, 73, 74, 75, 76, 77, 78, 79, 80], [6, 15, 24, 33, 42, 51, 60, 69, 78], [60, 61, 62, 69, 70, 71, 78, 79, 80]], [[72, 73, 74, 75, 76, 77, 78, 79, 80], [7, 16, 25, 34, 43, 52, 61, 70, 79], [60, 61, 62, 69, 70, 71, 78, 79, 80]], [[72, 73, 74, 75, 76, 77, 78, 79, 80], [8, 17, 26, 35, 44, 53, 62, 71, 80], [60, 61, 62, 69, 70, 71, 78, 79, 80]]]

/-- Go global `DIGITS`: the nine single-bit digit masks 1<<0 .. 1<<8. -/
def DIGITS : List Nat := [1, 2, 4, 8, 16, 32, 64, 128, 256]

/-- Go constant `ALL_DIGITS = 0b111111111`. -/
def ALL_DIGITS : Nat := 511

/-- Go table `NUM_DIGITS[val]`: the number of 1 bits in the bitset `val`.
The Go table is indexed 0..511; this function agrees with it there (cells
never hold a value above 511). -/
def NUM_DIGITS (v : Nat) : Nat :=
  (List.range 9).countP (fun k => v.testBit k)

/--Gridstring characters that count toward the 81 cells: digits '1'-'9'
and the blanks '0' and '.'.  This is also exactly the character set of the
`strings.ContainsAny(..., ".0123456789")` check in `parseGrid`. -/
def meaningfulChar (c : Char) : Bool :=
  (decide ('1' ≤ c) && decide (c ≤ '9')) || c == '0' || c == '.'

/-- The parsing loop of Go `parseGrid`: `acc` is the prefix of the grid
written so far (cells 0..s-1 in Go).  When 81 cells are filled, the loop
breaks and the remaining runes are checked for stray digit/blank
characters; at the end of input, fewer than 81 cells is a FormatError.
Both error returns are `none`. -/
def parseGo : List Char → List Nat → Option (List Nat)
  | [], acc => if acc.length = 81 then some acc else none
  | c :: cs, acc =>
    if acc.length = 81 then
      if (c :: cs).any meaningfulChar then none else some acc
    else if decide ('1' ≤ c) && decide (c ≤ '9') then
      parseGo cs (acc ++ [1 <<< (c.toNat - '1'.toNat)])
    else if c == '0' || c == '.' then
      parseGo cs (acc ++ [ALL_DIGITS])
    else
      parseGo cs acc

/-- Go `parseGrid`: parse a gridstring into a puzzle grid; `none` is the
FormatError case (too few cells, or digit/blank garbage after cell 81). -/
def parseGrid (cs : List Char) : Option (List Nat) :=
  parseGo cs []

/-- Go `verify` (grid non-nil case), embedded with its actual behaviour:
the per-square loop checks every square is a single digit and no given was
changed; the unit loop is `for s := range u`, which in Go ranges over the
INDICES 0..8 of the unit, so it ORs grid[0..8] rather than the unit's
cells. -/
def verifyGrid (grid puzzle : List Nat) : Bool :=
  (SQUARES.all fun s =>
    !(NUM_DIGITS (grid.getD s 0) != 1 ||
      (NUM_DIGITS (puzzle.getD s 0) == 1 && grid.getD s 0 != puzzle.getD s 0))) &&
  (ALL_UNITS.all fun u =>
    (List.range u.length).foldl (fun unit_digits s => unit_digits ||| grid.getD s 0) 0 == ALL_DIGITS)

/-- Go `verify`: a nil grid fails, otherwise check as `verifyGrid`. -/
def verify : Option (List Nat) → List Nat → Bool
  | none, _ => false
  | some grid, puzzle => verifyGrid grid puzzle

/-- The scanning loop of Go `selectSquare`; `best`/`mint` are the running
`square`/`mint` variables (`none` encodes -1, `mint` starts at N+1 = 10).
A square with exactly 2 possibilities is returned at once. -/
def ssGo (grid : List Nat) : List Nat → Option Nat → Nat → Option Nat
  | [], best, _ => best
  | s :: rest, best, mint =>
    let c := NUM_DIGITS (grid.getD s 0)
    if c = 2 then some s
    else if 1 < c ∧ c < mint then ssGo grid rest (some s) c
    else ssGo grid rest best mint

/-- Go `selectSquare`: choose an unfilled square with the minimum number of
possible values; `none` encodes the -1 "all filled" result. -/
def selectSquare (grid : List Nat) : Option Nat :=
  ssGo grid SQUARES none 10

/-- Commands of the mutually recursive Go propagation routines: `fil s d`
is `fill(grid, s, d)`, `elim s d` is `eliminate(grid, s, d)`, `arc s` is
`arcConsistent(grid, s)`, `dual s d` is `dualConsistent(grid, s, d)`;
`elimL ps d` is the peer loop inside `fill` and `dualL us d` the unit loop
inside `dualConsistent`. -/
inductive PCmd where
  | fil : Nat → Nat → PCmd
  | elimL : List Nat → Nat → PCmd
  | elim : Nat → Nat → PCmd
  | arc : Nat → PCmd
  | dual : Nat → Nat → PCmd
  | dualL : List (List Nat) → Nat → PCmd

/-- The inner scan of `dualConsistent` over one unit: count the possible
places for d in the unit (breaking out at 2, like the Go loop) and record
the first such place as `dplace` (Go initialises `dplace` to -1; it is
only read when the count is exactly 1, in which case it was set, so the
0 used as the initial place here is never read either). -/
def dscan (grid : List Nat) (d : Nat) : List Nat → Nat × Nat → Nat × Nat
  | [], acc => acc
  | s2 :: rest, (dPlaces, dplace) =>
    if (grid.getD s2 0) &&& d ≠ 0 then
      if dPlaces + 1 > 1 then (dPlaces + 1, dplace)
      else dscan grid d rest (dPlaces + 1, s2)
    else dscan grid d rest (dPlaces, dplace)

/-- The Go propagation engine `fill`/`eliminate`/`arcConsistent`/
`dualConsistent`, state-passing over the grid.  The result is the mutated
grid paired with the Go result (`fill` returning nil and the consistency
routines returning false are both `false`); the grid is returned even on
failure because the Go routines mutate their slice in place (callers such
as `initialize` keep using it).  The first argument is fuel, decremented
on every call of one routine (or loop step) by another; `none` means the
fuel ran out, which never happens with the fuel `FUEL` below
(`prop_total`). -/
def prop : Nat → PCmd → List Nat → Option (List Nat × Bool)
  | 0, _, _ => none
  | f + 1, .fil s d, grid =>
    -- fill: if d is not possible for grid[s] fail (Go returns nil without
    -- touching the array), else set grid[s] = d and eliminate d from all
    -- peers of s.
    if (grid.getD s 0) &&& d = 0 then some (grid, false)
    else prop f (.elimL (PEERS_T.getD s []) d) (grid.set s d)
  | _ + 1, .elimL [] _, grid => some (grid, true)
  | f + 1, .elimL (p :: ps) d, grid =>
    match prop f (.elim p d) grid with
    | none => none
    | some (grid1, false) => some (grid1, false)
    | some (grid1, true) => prop f (.elimL ps d) grid1
  | f + 1, .elim s d, grid =>
    -- eliminate: no-op if d is already gone, else remove it (grid[s] -= d)
    -- and run the two consistency checks.
    if (grid.getD s 0) &&& d = 0 then some (grid, true)
    else
      match prop f (.arc s) (grid.set s (grid.getD s 0 - d)) with
      | none => none
      | some (grid2, false) => some (grid2, false)
      | some (grid2, true) => prop f (.dual s d) grid2
  | f + 1, .arc s, grid =>
    -- arcConsistent: count >= 2, or count == 1 and that digit fills.
    let count := NUM_DIGITS (grid.getD s 0)
    if 2 ≤ count then some (grid, true)
    else if count = 1 then prop f (.fil s (grid.getD s 0)) grid
    else some (grid, false)
  | f + 1, .dual s d, grid => prop f (.dualL (UNITS_T.getD s []) d) grid
  | _ + 1, .dualL [] _, grid => some (grid, true)
  | f + 1, .dualL (u :: us) d, grid =>
    match dscan grid d u (0, 0) with
    | (0, _) => some (grid, false)
    | (1, dplace) =>
      match prop f (.fil dplace d) grid with
      | none => none
      | some (grid1, false) => some (grid1, false)
      | some (grid1, true) => prop f (.dualL us d) grid1
    | _ => prop f (.dualL us d) grid

/-- Fuel that `prop` can never exhaust on grids whose cells are valid
bitsets (≤ 511): see `prop_total`, which needs only 26 * 81 * 511 + 30. -/
def FUEL : Nat := 2000000

/-- Go `fill`, at the always-sufficient fuel. -/
def fill (grid : List Nat) (s d : Nat) : Option (List Nat × Bool) :=
  prop FUEL (.fil s d) grid

/-- Go `initialize`: a fresh all-ALL_DIGITS grid, then `fill` for every
given of the puzzle, in square order.  Note that the Go code IGNORES the
result of `fill` (unlike Norvig's Java `grid = fill(grid, s, puzzle[s])`):
it keeps the in-place mutated slice and never returns nil, so the embedded
function keeps the returned grid and drops the failure flag.  (The `none`
fuel case keeps the grid unchanged; it cannot occur, `prop_total`.) -/
def initializeGrid (puzzle : List Nat) : List Nat :=
  SQUARES.foldl
    (fun grid s =>
      if puzzle.getD s 0 ≠ ALL_DIGITS then
        match fill grid s (puzzle.getD s 0) with
        | none => grid
        | some (grid1, _) => grid1
      else grid)
    (List.replicate 81 ALL_DIGITS)

/-- Commands of the embedded `search`: `go og` is a call
`search(grid, gridpool, level)` with `og = none` for a nil grid argument
(the result of a failed `fill`), and `tryd grid s ds` is the digit loop of
`search` with the digits `ds` still to try for square `s`. -/
inductive SCmd where
  | go : Option (List Nat) → SCmd
  | tryd : List Nat → Nat → List Nat → SCmd

/-- Go `search` with the `gridpool` that `solveList` allocates, and the
global `backtracks` counter threaded through (`cnt`).  `level` is the
recursion level; writing the grid copy into the pool is `pool.set level`.
Fuel is decremented on every recursive call (including digit-loop steps);
`none` is an embedding failure marker: fuel exhaustion, an out-of-bounds
`gridpool[level]` access (a Go panic), or inner `fill` fuel exhaustion.
The result is `(solution-or-nil, pool, backtracks)`. -/
def srch : Nat → List (List Nat) → Nat → SCmd → Nat →
    Option (Option (List Nat) × List (List Nat) × Nat)
  | 0, _, _, _, _ => none
  | _ + 1, pool, _, .go none, cnt => some (none, pool, cnt)
  | f + 1, pool, level, .go (some grid), cnt =>
    match selectSquare grid with
    | none => some (some grid, pool, cnt)  -- no square to select: done
    | some s => srch f pool level (.tryd grid s DIGITS) cnt
  | _ + 1, pool, _, .tryd _ _ [], cnt => some (none, pool, cnt)
  | f + 1, pool, level, .tryd grid s (d :: ds), cnt =>
    if d &&& (grid.getD s 0) ≠ 0 then
      -- copy grid's contents into gridpool[level] and fill there
      if level < pool.length then
        match fill grid s d with
        | none => none
        | some (grid1, ok) =>
          let pool1 := pool.set level grid1
          match srch f pool1 (level + 1) (.go (if ok then some grid1 else none)) cnt with
          | none => none
          | some (some result, pool2, cnt2) => some (some result, pool2, cnt2)
          | some (none, pool2, cnt2) => srch f pool2 level (.tryd grid s ds) (cnt2 + 1)
      else none
    else srch f pool level (.tryd grid s ds) cnt

/-- The pool of 81 fresh grids allocated by Go `solveList`
(`make([][N * N]int, N*N)`: zero-valued arrays). -/
def pool0 : List (List Nat) := List.replicate 81 (List.replicate 81 0)

/-- Search fuel bound: 1000 exceeds the 12 * 82 depth-style bound proved
sufficient in the C5 development. -/
def SFUEL : Nat := 1000

/-- Run a parsed puzzle the way `solveList` does with search enabled:
initialize, then `search(solution, gridpool, 0)` with backtracks 0. -/
def solvePuzzle (puzzle : List Nat) : Option (Option (List Nat) × List (List Nat) × Nat) :=
  srch SFUEL pool0 0 (.go (some (initializeGrid puzzle))) 0

/-
Computation layer.  Kernel evaluation of the list-based embedding above is
too slow for whole-puzzle runs, so the same algorithm is repeated below
with the 81-cell grid packed into a single natural number, 16 bits per
cell (cell s occupies bits 16*s .. 16*s+15; cell values never exceed
511).  `propN_sim`, `srchN_sim` and friends prove that each packed
function computes exactly the packed image of its list-based counterpart,
so concrete runs can be evaluated on the packed side and transported.
-/

/-- Pack a grid, cell 0 least significant, 16 bits per cell. -/
def pack : List Nat → Nat
  | [] => 0
  | v :: rest => v + 65536 * pack rest

/-- Read cell s of a packed grid (the read `grid[s]`). -/
def getCell (g s : Nat) : Nat := (g >>> (16 * s)) &&& 65535

/-- Write cell s of a packed grid (the write `grid[s] = v`). -/
def setCell (g s v : Nat) : Nat := g - (getCell g s <<< (16 * s)) + (v <<< (16 * s))

/-- `dscan` on a packed grid. -/
def dscanN (g d : Nat) : List Nat → Nat × Nat → Nat × Nat
  | [], acc => acc
  | s2 :: rest, (dPlaces, dplace) =>
    if (getCell g s2) &&& d ≠ 0 then
      if dPlaces + 1 > 1 then (dPlaces + 1, dplace)
      else dscanN g d rest (dPlaces + 1, s2)
    else dscanN g d rest (dPlaces, dplace)

/-- `prop` on a packed grid: same fuel discipline, same commands. -/
def propN : Nat → PCmd → Nat → Option (Nat × Bool)
  | 0, _, _ => none
  | f + 1, .fil s d, grid =>
    if (getCell grid s) &&& d = 0 then some (grid, false)
    else propN f (.elimL (PEERS_T.getD s []) d) (setCell grid s d)
  | _ + 1, .elimL [] _, grid => some (grid, true)
  | f + 1, .elimL (p :: ps) d, grid =>
    match propN f (.elim p d) grid with
    | none => none
    | some (grid1, false) => some (grid1, false)
    | some (grid1, true) => propN f (.elimL ps d) grid1
  | f + 1, .elim s d, grid =>
    if (getCell grid s) &&& d = 0 then some (grid, true)
    else
      match propN f (.arc s) (setCell grid s (getCell grid s - d)) with
      | none => none
      | some (grid2, false) => some (grid2, false)
      | some (grid2, true) => propN f (.dual s d) grid2
  | f + 1, .arc s, grid =>
    let count := NUM_DIGITS (getCell grid s)
    if 2 ≤ count then some (grid, true)
    else if count = 1 then propN f (.fil s (getCell grid s)) grid
    else some (grid, false)
  | f + 1, .dual s d, grid => propN f (.dualL (UNITS_T.getD s []) d) grid
  | _ + 1, .dualL [] _, grid => some (grid, true)
  | f + 1, .dualL (u :: us) d, grid =>
    match dscanN grid d u (0, 0) with
    | (0, _) => some (grid, false)
    | (1, dplace) =>
      match propN f (.fil dplace d) grid with
      | none => none
      | some (grid1, false) => some (grid1, false)
      | some (grid1, true) => propN f (.dualL us d) grid1
    | _ => propN f (.dualL us d) grid

/-- `fill` on a packed grid. -/
def fillN (grid s d : Nat) : Option (Nat × Bool) := propN FUEL (.fil s d) grid

/-- `initialize` on a packed grid. -/
def initializeGridN (puzzle : List Nat) : Nat :=
  SQUARES.foldl
    (fun grid s =>
      if puzzle.getD s 0 ≠ ALL_DIGITS then
        match fillN grid s (puzzle.getD s 0) with
        | none => grid
        | some (grid1, _) => grid1
      else grid)
    (pack (List.replicate 81 ALL_DIGITS))

/-- The `selectSquare` scan on a packed grid. -/
def ssGoN (grid : Nat) : List Nat → Option Nat → Nat → Option Nat
  | [], best, _ => best
  | s :: rest, best, mint =>
    let c := NUM_DIGITS (getCell grid s)
    if c = 2 then some s
    else if 1 < c ∧ c < mint then ssGoN grid rest (some s) c
    else ssGoN grid rest best mint

/-- `selectSquare` on a packed grid. -/
def selectSquareN (grid : Nat) : Option Nat := ssGoN grid SQUARES none 10

/-- `SCmd` with packed grids. -/
inductive SCmdN where
  | go : Option Nat → SCmdN
  | tryd : Nat → Nat → List Nat → SCmdN

/-- `srch` on packed grids (the pool is a list of packed grids). -/
def srchN : Nat → List Nat → Nat → SCmdN → Nat → Option (Option Nat × List Nat × Nat)
  | 0, _, _, _, _ => none
  | _ + 1, pool, _, .go none, cnt => some (none, pool, cnt)
  | f + 1, pool, level, .go (some grid), cnt =>
    match selectSquareN grid with
    | none => some (some grid, pool, cnt)
    | some s => srchN f pool level (.tryd grid s DIGITS) cnt
  | _ + 1, pool, _, .tryd _ _ [], cnt => some (none, pool, cnt)
  | f + 1, pool, level, .tryd grid s (d :: ds), cnt =>
    if d &&& (getCell grid s) ≠ 0 then
      if level < pool.length then
        match fillN grid s d with
        | none => none
        | some (grid1, ok) =>
          let pool1 := pool.set level grid1
          match srchN f pool1 (level + 1) (.go (if ok then some grid1 else none)) cnt with
          | none => none
          | some (some result, pool2, cnt2) => some (some result, pool2, cnt2)
          | some (none, pool2, cnt2) => srchN f pool2 level (.tryd grid s ds) (cnt2 + 1)
      else none
    else srchN f pool level (.tryd grid s ds) cnt

/-- The suffix of a gridstring after its n-th meaningful character. -/
def dropAfterM : Nat → List Char → List Char
  | 0, l => l
  | _ + 1, [] => []
  | n + 1, c :: cs => if meaningfulChar c then dropAfterM n cs else dropAfterM (n + 1) cs

-- concrete pieces for C1 and C2
def badGrid : List Nat := (List.range 81).map (fun i => 1 <<< (i % 9))

def blankPuzzle : List Nat := List.replicate 81 511

def pBadStr : String := "113000000000000000000000000000000000000000000000000000000000000000000000000000000"

def pBad : List Nat := (parseGrid pBadStr.toList).getD []

/-- Total candidate mass of a grid (the sum of all cell bitsets), the
measure that strictly decreases on every digit elimination. -/
def gsum (l : List Nat) : Nat := l.sum

/-! Digit-mask helpers. -/

/-- A digit mask as stored in `DIGITS`: a single bit among the nine. -/
def okDigit (d : Nat) : Prop := ∃ k, k < 9 ∧ d = 1 <<< k

/-- A well-formed grid state: 81 cells, each a valid 9-digit bitset. -/
def gridOK (g : List Nat) : Prop := g.length = 81 ∧ ∀ x ∈ g, x ≤ 511

/-- Well-formed propagation commands: every digit argument is one of the
nine single-bit digit masks, and the loop lists are as long as the tables
they come from at most. -/
def cmdOK : PCmd → Prop
  | .fil _ d => okDigit d
  | .elimL ps d => okDigit d ∧ ps.length ≤ 20
  | .elim _ d => okDigit d
  | .arc _ => True
  | .dual _ d => okDigit d
  | .dualL us d => okDigit d ∧ us.length ≤ 3

/-- Fuel needed by each command on a grid of total candidate mass S. -/
def need : PCmd → Nat → Nat
  | .fil _ _, S => 26 * S + 26
  | .elimL ps _, S => 26 * S + 5 + ps.length
  | .elim _ _, S => 26 * S + 5
  | .arc _, S => 26 * S + 27
  | .dual _ _, S => 26 * S + 30
  | .dualL us _, S => 26 * S + 26 + us.length

/-- The grid that a command's own assignment produces before its nested
eliminations run: `fill` writes d into cell s first, the others write
nothing of their own. -/
def base : PCmd → List Nat → List Nat
  | .fil s d, g => g.set s d
  | _, g => g

/-- Number of determined cells (exactly one candidate) of a grid. -/
def dCount (g : List Nat) : Nat :=
  ((Finset.range 81).filter (fun i => NUM_DIGITS (g.getD i 0) = 1)).card

def w5grid : List Nat := [1, 510, 510, 510, 510, 510, 510, 510, 510, 510, 510, 510, 511, 511, 511, 511, 511, 511, 510, 510, 510, 511, 511, 511, 511, 511, 511, 510, 511, 511, 511, 511, 511, 511, 511, 511, 510, 511, 511, 511, 511, 511, 511, 511, 511, 510, 511, 511, 511, 511, 511, 511, 511, 511, 510, 511, 511, 511, 511, 511, 511, 511, 511, 510, 511, 511, 511, 511, 511, 511, 511, 511, 510, 511, 511, 511, 511, 511, 511, 511, 511]

def w7grid : List Nat := 3 :: 1 :: List.replicate 79 511

def w7fail : List Nat := 1 :: 0 :: List.replicate 79 511

def w8fail : List Nat := 3 :: 0 :: List.replicate 79 511

def w8grid : List Nat := [509, 2, 509, 509, 509, 509, 509, 509, 509, 509, 509, 509, 511, 511, 511, 511, 511, 511, 509, 509, 509, 511, 511, 511, 511, 511, 511, 511, 509, 511, 511, 511, 511, 511, 511, 511, 511, 509, 511, 511, 511, 511, 511, 511, 511, 511, 509, 511, 511, 511, 511, 511, 511, 511, 511, 509, 511, 511, 511, 511, 511, 511, 511, 511, 509, 511, 511, 511, 511, 511, 511, 511, 511, 509, 511, 511, 511, 511, 511, 511, 511]

/-- Packing of a search command. -/
def scmdN : SCmd → SCmdN
  | .go og => .go (og.map pack)
  | .tryd g s ds => .tryd (pack g) s ds

/-- Well-formedness of a search command's grids and digits. -/
def cmdSOK : SCmd → Prop
  | .go none => True
  | .go (some g) => gridOK g
  | .tryd g _ ds => gridOK g ∧ ∀ d ∈ ds, okDigit d

def norvigStr : String := "003020600900305001001806400008102900700000008006708200002609500800203009005010300"

def solStr : String := "483921657967345821251876493548132976729564138136798245372689514814253769695417382"

def contraStr : String := "443921657967345821251876493548132976729564138136798245372689514814253769695417382"

def norvigPuz : List Nat := (parseGrid norvigStr.toList).getD []

def norvigSol : List Nat := (parseGrid solStr.toList).getD []

def contraPuz : List Nat := (parseGrid contraStr.toList).getD []

theorem dropAfterM_cons_m {c : Char} (n : Nat) (cs : List Char) (h : meaningfulChar c = true) :
    dropAfterM (n + 1) (c :: cs) = dropAfterM n cs := by
  simp [dropAfterM, h]

theorem dropAfterM_cons_nm {c : Char} (n : Nat) (cs : List Char) (h : meaningfulChar c = false) :
    dropAfterM (n + 1) (c :: cs) = dropAfterM (n + 1) cs := by
  simp [dropAfterM, h]

theorem meaningfulChar_digit {c : Char} (hd : (decide ('1' ≤ c) && decide (c ≤ '9')) = true) :
    meaningfulChar c = true := by
  simp only [meaningfulChar, hd, Bool.true_or]

theorem meaningfulChar_blank {c : Char} (hb : (c == '0' || c == '.') = true) :
    meaningfulChar c = true := by
  simp only [meaningfulChar]
  rcases (Bool.or_eq_true _ _).mp hb with h | h <;> simp [h]

theorem meaningfulChar_other {c : Char} (hd : ¬((decide ('1' ≤ c) && decide (c ≤ '9')) = true))
    (hb : ¬((c == '0' || c == '.') = true)) : meaningfulChar c = false := by
  have hd' : (decide ('1' ≤ c) && decide (c ≤ '9')) = false := by
    cases h : (decide ('1' ≤ c) && decide (c ≤ '9'))
    · rfl
    · exact absurd h hd
  have hb' : (c == '0' || c == '.') = false := by
    cases h : (c == '0' || c == '.')
    · rfl
    · exact absurd h hb
  have hb0 : (c == '0') = false := by
    cases h : (c == '0')
    · rfl
    · rw [h] at hb'; simp at hb'
  have hbp : (c == '.') = false := by
    cases h : (c == '.')
    · rfl
    · rw [h] at hb'; simp at hb'
  simp [meaningfulChar, hd', hb0, hbp]

theorem parseGo_none_iff (cs : List Char) : ∀ acc : List Nat, acc.length ≤ 81 →
    (parseGo cs acc = none ↔
      (acc.length + cs.countP meaningfulChar < 81 ∨
        (dropAfterM (81 - acc.length) cs).any meaningfulChar = true)) := by
  induction cs with
  | nil =>
    intro acc hle
    have hdrop : ∀ n, dropAfterM n ([] : List Char) = [] := by
      intro n; cases n <;> rfl
    rw [hdrop]
    simp only [parseGo, List.countP_nil, List.any_nil]
    by_cases h81 : acc.length = 81
    · simp [h81]
    · rw [if_neg h81]
      constructor
      · intro _; left; omega
      · intro _; rfl
  | cons c cs ih =>
    intro acc hle
    by_cases h81 : acc.length = 81
    · have hz : 81 - acc.length = 0 := by omega
      rw [hz]
      simp only [dropAfterM]
      rw [show parseGo (c :: cs) acc = if (c :: cs).any meaningfulChar then none else some acc by
        simp [parseGo, h81]]
      by_cases ha : (c :: cs).any meaningfulChar = true
      · simp [ha, h81]
      · rw [if_neg ha]
        constructor
        · intro h; exact absurd h (by simp)
        · intro h
          rcases h with h | h
          · rw [List.countP_cons] at h; omega
          · exact absurd h ha
    · have hlt : acc.length < 81 := by omega
      obtain ⟨m, hm⟩ : ∃ m, 81 - acc.length = m + 1 := ⟨81 - acc.length - 1, by omega⟩
      by_cases hd : (decide ('1' ≤ c) && decide (c ≤ '9')) = true
      · have hmc := meaningfulChar_digit hd
        rw [show parseGo (c :: cs) acc = parseGo cs (acc ++ [1 <<< (c.toNat - '1'.toNat)]) by
          simp only [parseGo, if_neg h81, if_pos hd]]
        rw [ih _ (by rw [List.length_append]; simp; omega)]
        rw [hm, dropAfterM_cons_m _ _ hmc]
        rw [List.countP_cons, hmc]
        simp only [List.length_append, List.length_cons, List.length_nil, reduceIte]
        have hm2 : 81 - (acc.length + (0 + 1)) = m := by omega
        rw [hm2]
        constructor
        · intro h; rcases h with h | h
          · left; omega
          · right; exact h
        · intro h; rcases h with h | h
          · left; omega
          · right; exact h
      · by_cases hb : (c == '0' || c == '.') = true
        · have hmc := meaningfulChar_blank hb
          rw [show parseGo (c :: cs) acc = parseGo cs (acc ++ [ALL_DIGITS]) by
            simp only [parseGo, if_neg h81, if_neg hd, if_pos hb]]
          rw [ih _ (by rw [List.length_append]; simp; omega)]
          rw [hm, dropAfterM_cons_m _ _ hmc]
          rw [List.countP_cons, hmc]
          simp only [List.length_append, List.length_cons, List.length_nil, reduceIte]
          have hm2 : 81 - (acc.length + (0 + 1)) = m := by omega
          rw [hm2]
          constructor
          · intro h; rcases h with h | h
            · left; omega
            · right; exact h
          · intro h; rcases h with h | h
            · left; omega
            · right; exact h
        · have hmc := meaningfulChar_other hd hb
          rw [show parseGo (c :: cs) acc = parseGo cs acc by
            simp only [parseGo, if_neg h81, if_neg hd, if_neg hb]]
          rw [ih _ hle, hm, dropAfterM_cons_nm _ _ hmc]
          rw [List.countP_cons, hmc, ← hm]
          simp

theorem parseGo_some (cs : List Char) : ∀ (acc g : List Nat), parseGo cs acc = some g →
    (∀ x ∈ acc, (∃ k, k < 9 ∧ x = 1 <<< k) ∨ x = 511) →
    g.length = 81 ∧ ∀ x ∈ g, (∃ k, k < 9 ∧ x = 1 <<< k) ∨ x = 511 := by
  induction cs with
  | nil =>
    intro acc g hp hok
    simp only [parseGo] at hp
    by_cases h81 : acc.length = 81
    · rw [if_pos h81] at hp
      cases hp
      exact ⟨h81, hok⟩
    · rw [if_neg h81] at hp; cases hp
  | cons c cs ih =>
    intro acc g hp hok
    by_cases h81 : acc.length = 81
    · rw [show parseGo (c :: cs) acc = if (c :: cs).any meaningfulChar then none else some acc by
        simp [parseGo, h81]] at hp
      by_cases ha : (c :: cs).any meaningfulChar = true
      · rw [if_pos ha] at hp; cases hp
      · rw [if_neg ha] at hp; cases hp; exact ⟨h81, hok⟩
    · by_cases hd : (decide ('1' ≤ c) && decide (c ≤ '9')) = true
      · rw [show parseGo (c :: cs) acc = parseGo cs (acc ++ [1 <<< (c.toNat - '1'.toNat)]) by
          simp only [parseGo, if_neg h81, if_pos hd]] at hp
        refine ih _ _ hp ?_
        intro x hx
        rcases List.mem_append.mp hx with hx | hx
        · exact hok x hx
        · rcases List.mem_singleton.mp hx with rfl
          left
          refine ⟨c.toNat - '1'.toNat, ?_, rfl⟩
          rw [Bool.and_eq_true] at hd
          have h9' : c.toNat ≤ 57 := of_decide_eq_true hd.2
          have h1' : 49 ≤ c.toNat := of_decide_eq_true hd.1
          have hone : '1'.toNat = 49 := rfl
          omega
      · by_cases hb : (c == '0' || c == '.') = true
        · rw [show parseGo (c :: cs) acc = parseGo cs (acc ++ [ALL_DIGITS]) by
            simp only [parseGo, if_neg h81, if_neg hd, if_pos hb]] at hp
          refine ih _ _ hp ?_
          intro x hx
          rcases List.mem_append.mp hx with hx | hx
          · exact hok x hx
          · rcases List.mem_singleton.mp hx with rfl
            right; rfl
        · rw [show parseGo (c :: cs) acc = parseGo cs acc by
            simp only [parseGo, if_neg h81, if_neg hd, if_neg hb]] at hp
          exact ih _ _ hp hok

theorem NUM_DIGITS_le_nine (v : Nat) : NUM_DIGITS v ≤ 9 := by
  have := List.countP_le_length (l := List.range 9) (p := fun k => v.testBit k)
  simpa [NUM_DIGITS] using this

theorem ssGo_none (g : List Nat) : ∀ (l : List Nat) (best : Option Nat) (mint : Nat),
    (best = none → mint = 10) →
    ssGo g l best mint = none → best = none ∧ ∀ t ∈ l, NUM_DIGITS (g.getD t 0) ≤ 1 := by
  intro l
  induction l with
  | nil => intro best mint _ h; exact ⟨h, by simp⟩
  | cons s0 rest ih =>
    intro best mint hmint h
    rw [ssGo] at h
    by_cases h2 : NUM_DIGITS (g.getD s0 0) = 2
    · simp only [h2, reduceIte] at h; cases h
    · rw [if_neg h2] at h
      by_cases h3 : 1 < NUM_DIGITS (g.getD s0 0) ∧ NUM_DIGITS (g.getD s0 0) < mint
      · rw [if_pos h3] at h
        rcases ih _ _ (by intro hx; cases hx) h with ⟨hbest, _⟩
        cases hbest
      · rw [if_neg h3] at h
        rcases ih _ _ hmint h with ⟨hbest, hrest⟩
        subst hbest
        have hm10 := hmint rfl
        refine ⟨rfl, ?_⟩
        intro t ht
        rcases List.mem_cons.mp ht with rfl | ht
        · have h9 := NUM_DIGITS_le_nine (g.getD t 0)
          omega
        · exact hrest t ht

theorem ssGo_some (g : List Nat) : ∀ (l scnd : List Nat) (best : Option Nat) (mint : Nat) (s : Nat),
    (∀ t ∈ scnd, NUM_DIGITS (g.getD t 0) ≤ 1 ∨ mint ≤ NUM_DIGITS (g.getD t 0)) →
    (∀ b, best = some b → ∀ t ∈ scnd, t < b →
      NUM_DIGITS (g.getD t 0) ≤ 1 ∨ mint < NUM_DIGITS (g.getD t 0)) →
    (best = none → mint = 10) →
    (∀ b, best = some b → b ∈ scnd ∧ NUM_DIGITS (g.getD b 0) = mint ∧ 3 ≤ mint) →
    l.Pairwise (· < ·) →
    (∀ t ∈ scnd, ∀ u ∈ l, t < u) →
    ssGo g l best mint = some s →
    (s ∈ scnd ∨ s ∈ l) ∧ 2 ≤ NUM_DIGITS (g.getD s 0) ∧
    (∀ t, (t ∈ scnd ∨ t ∈ l) → 2 ≤ NUM_DIGITS (g.getD t 0) →
      NUM_DIGITS (g.getD s 0) ≤ NUM_DIGITS (g.getD t 0)) ∧
    (∀ t, (t ∈ scnd ∨ t ∈ l) → t < s → 2 ≤ NUM_DIGITS (g.getD t 0) →
      NUM_DIGITS (g.getD s 0) < NUM_DIGITS (g.getD t 0)) := by
  intro l
  induction l with
  | nil =>
    intro scnd best mint s h1 h2 _ h4 _ _ hrun
    simp only [ssGo] at hrun
    subst hrun
    rcases h4 s rfl with ⟨hmem, hnd, hm3⟩
    refine ⟨Or.inl hmem, by omega, ?_, ?_⟩
    · intro t ht h2t
      rcases ht with ht | ht
      · rcases h1 t ht with hle | hge <;> omega
      · cases ht
    · intro t ht hts h2t
      rcases ht with ht | ht
      · rcases h2 s rfl t ht hts with hle | hgt <;> omega
      · cases ht
  | cons s0 rest ih =>
    intro scnd best mint s h1 h2 h3 h4 hpw horder hrun
    have hpw' : rest.Pairwise (· < ·) := (List.pairwise_cons.mp hpw).2
    have hs0rest : ∀ u ∈ rest, s0 < u := (List.pairwise_cons.mp hpw).1
    rw [ssGo] at hrun
    by_cases hc2 : NUM_DIGITS (g.getD s0 0) = 2
    · simp only [hc2, reduceIte] at hrun
      injection hrun with hrun
      subst hrun
      refine ⟨Or.inr (List.mem_cons_self _ _), by omega, ?_, ?_⟩
      · intro t _ h2t; omega
      · intro t ht hts h2t
        -- t < s, so t is in scnd (elements of s :: rest are ≥ s)
        rcases ht with ht | ht
        · rcases h1 t ht with hle | hge
          · omega
          · -- mint ≤ ND t; mint ≥ 3 when best is some, mint = 10 when none
            rcases hb : best with _ | b
            · have := h3 hb; omega
            · rcases h4 b hb with ⟨_, _, hm3⟩; omega
        · rcases List.mem_cons.mp ht with rfl | ht
          · omega
          · have := hs0rest t ht; omega
    · rw [if_neg hc2] at hrun
      by_cases h3c : 1 < NUM_DIGITS (g.getD s0 0) ∧ NUM_DIGITS (g.getD s0 0) < mint
      · rw [if_pos h3c] at hrun
        have hres := ih (scnd ++ [s0]) (some s0) (NUM_DIGITS (g.getD s0 0)) s
          (by
            intro t ht
            rcases List.mem_append.mp ht with ht | ht
            · rcases h1 t ht with hle | hge
              · exact Or.inl hle
              · right; omega
            · rcases List.mem_singleton.mp ht with rfl; right; omega)
          (by
            intro b hb t ht htb
            cases hb
            rcases List.mem_append.mp ht with ht | ht
            · rcases h1 t ht with hle | hge
              · exact Or.inl hle
              · right; omega
            · rcases List.mem_singleton.mp ht with rfl; omega)
          (by intro hx; cases hx)
          (by
            intro b hb
            cases hb
            refine ⟨List.mem_append.mpr (Or.inr (List.mem_singleton.mpr rfl)), rfl, by omega⟩)
          hpw'
          (by
            intro t ht u hu
            rcases List.mem_append.mp ht with ht | ht
            · exact horder t ht u (List.mem_cons.mpr (Or.inr hu))
            · rcases List.mem_singleton.mp ht with rfl
              exact hs0rest u hu)
          hrun
        rcases hres with ⟨hmem, hnd, hmin, hstrict⟩
        refine ⟨?_, hnd, ?_, ?_⟩
        · rcases hmem with hm | hm
          · rcases List.mem_append.mp hm with hm | hm
            · exact Or.inl hm
            · rcases List.mem_singleton.mp hm with rfl
              exact Or.inr (List.mem_cons_self _ _)
          · exact Or.inr (List.mem_cons.mpr (Or.inr hm))
        · intro t ht h2t
          refine hmin t ?_ h2t
          rcases ht with ht | ht
          · exact Or.inl (List.mem_append.mpr (Or.inl ht))
          · rcases List.mem_cons.mp ht with rfl | ht
            · exact Or.inl (List.mem_append.mpr (Or.inr (List.mem_singleton.mpr rfl)))
            · exact Or.inr ht
        · intro t ht hts h2t
          refine hstrict t ?_ hts h2t
          rcases ht with ht | ht
          · exact Or.inl (List.mem_append.mpr (Or.inl ht))
          · rcases List.mem_cons.mp ht with rfl | ht
            · exact Or.inl (List.mem_append.mpr (Or.inr (List.mem_singleton.mpr rfl)))
            · exact Or.inr ht
      · rw [if_neg h3c] at hrun
        have hcor : NUM_DIGITS (g.getD s0 0) ≤ 1 ∨ mint ≤ NUM_DIGITS (g.getD s0 0) := by omega
        have hres := ih (scnd ++ [s0]) best mint s
          (by
            intro t ht
            rcases List.mem_append.mp ht with ht | ht
            · exact h1 t ht
            · rcases List.mem_singleton.mp ht with rfl; exact hcor)
          (by
            intro b hb t ht htb
            rcases List.mem_append.mp ht with ht | ht
            · exact h2 b hb t ht htb
            · have ht0 : t = s0 := List.mem_singleton.mp ht
              rcases h4 b hb with ⟨hbmem, _, _⟩
              have := horder b hbmem s0 (List.mem_cons_self _ _)
              omega)
          h3
          (by
            intro b hb
            rcases h4 b hb with ⟨hbmem, hnd, hm3⟩
            exact ⟨List.mem_append.mpr (Or.inl hbmem), hnd, hm3⟩)
          hpw'
          (by
            intro t ht u hu
            rcases List.mem_append.mp ht with ht | ht
            · exact horder t ht u (List.mem_cons.mpr (Or.inr hu))
            · rcases List.mem_singleton.mp ht with rfl
              exact hs0rest u hu)
          hrun
        rcases hres with ⟨hmem, hnd, hmin, hstrict⟩
        refine ⟨?_, hnd, ?_, ?_⟩
        · rcases hmem with hm | hm
          · rcases List.mem_append.mp hm with hm | hm
            · exact Or.inl hm
            · rcases List.mem_singleton.mp hm with rfl
              exact Or.inr (List.mem_cons_self _ _)
          · exact Or.inr (List.mem_cons.mpr (Or.inr hm))
        · intro t ht h2t
          refine hmin t ?_ h2t
          rcases ht with ht | ht
          · exact Or.inl (List.mem_append.mpr (Or.inl ht))
          · rcases List.mem_cons.mp ht with rfl | ht
            · exact Or.inl (List.mem_append.mpr (Or.inr (List.mem_singleton.mpr rfl)))
            · exact Or.inr ht
        · intro t ht hts h2t
          refine hstrict t ?_ hts h2t
          rcases ht with ht | ht
          · exact Or.inl (List.mem_append.mpr (Or.inl ht))
          · rcases List.mem_cons.mp ht with rfl | ht
            · exact Or.inl (List.mem_append.mpr (Or.inr (List.mem_singleton.mpr rfl)))
            · exact Or.inr ht

theorem selectSquare_none_iff (g : List Nat) :
    selectSquare g = none ↔ ∀ t, t < 81 → NUM_DIGITS (g.getD t 0) ≤ 1 := by
  constructor
  · intro h t ht
    have := (ssGo_none g SQUARES none 10 (fun _ => rfl) h).2
    exact this t (by simpa [SQUARES, List.mem_range] using ht)
  · intro h
    cases hs : selectSquare g with
    | none => rfl
    | some s =>
      exfalso
      have hspec := ssGo_some g SQUARES [] none 10 s
        (by intro t ht; cases ht)
        (by intro b hb; cases hb)
        (fun _ => rfl)
        (by intro b hb; cases hb)
        (by simpa [SQUARES] using List.pairwise_lt_range 81)
        (by intro t ht; cases ht)
        hs
      rcases hspec with ⟨hmem, hnd, _, _⟩
      rcases hmem with hm | hm
      · cases hm
      · have hlt : s < 81 := by simpa [SQUARES, List.mem_range] using hm
        have := h s hlt
        omega

theorem selectSquare_some_spec (g : List Nat) (s : Nat) (hs : selectSquare g = some s) :
    s < 81 ∧ 2 ≤ NUM_DIGITS (g.getD s 0) ∧
    (∀ t, t < 81 → 2 ≤ NUM_DIGITS (g.getD t 0) →
      NUM_DIGITS (g.getD s 0) ≤ NUM_DIGITS (g.getD t 0)) ∧
    (∀ t, t < s → 2 ≤ NUM_DIGITS (g.getD t 0) →
      NUM_DIGITS (g.getD s 0) < NUM_DIGITS (g.getD t 0)) := by
  have hspec := ssGo_some g SQUARES [] none 10 s
    (by intro t ht; cases ht)
    (by intro b hb; cases hb)
    (fun _ => rfl)
    (by intro b hb; cases hb)
    (by simpa [SQUARES] using List.pairwise_lt_range 81)
    (by intro t ht; cases ht)
    hs
  rcases hspec with ⟨hmem, hnd, hmin, hstrict⟩
  have hs81 : s < 81 := by
    rcases hmem with hm | hm
    · cases hm
    · simpa [SQUARES, List.mem_range] using hm
  refine ⟨hs81, hnd, ?_, ?_⟩
  · intro t ht h2t
    exact hmin t (Or.inr (by simpa [SQUARES, List.mem_range] using ht)) h2t
  · intro t ht h2t
    have ht81 : t < 81 := by omega
    exact hstrict t (Or.inr (by simpa [SQUARES, List.mem_range] using ht81)) ht h2t

/-! List access helpers. -/

theorem getD_set_self (l : List Nat) (s v : Nat) (h : s < l.length) :
    (l.set s v).getD s 0 = v := by
  induction l generalizing s with
  | nil => simp at h
  | cons a l ih =>
    cases s with
    | zero => rfl
    | succ s => simpa using ih s (by simpa using h)

theorem getD_set_ne (l : List Nat) (s v t : Nat) (h : t ≠ s) :
    (l.set s v).getD t 0 = l.getD t 0 := by
  induction l generalizing s t with
  | nil => simp
  | cons a l ih =>
    cases s with
    | zero =>
      cases t with
      | zero => exact absurd rfl h
      | succ t => rfl
    | succ s =>
      cases t with
      | zero => rfl
      | succ t => simpa using ih s t (by omega)

theorem lt_length_of_getD_ne_zero (l : List Nat) (s : Nat) (h : l.getD s 0 ≠ 0) :
    s < l.length := by
  by_contra hc
  rw [List.getD_eq_default] at h
  · exact h rfl
  · omega

theorem getD_le_of_forall (l : List Nat) (s B : Nat) (h : ∀ x ∈ l, x ≤ B) :
    l.getD s 0 ≤ B := by
  induction l generalizing s with
  | nil => simp
  | cons a l ih =>
    cases s with
    | zero => exact h a (List.mem_cons_self _ _)
    | succ s => simpa using ih s (fun x hx => h x (List.mem_cons_of_mem _ hx))

theorem gsum_set (l : List Nat) (s v : Nat) (h : s < l.length) :
    gsum (l.set s v) + l.getD s 0 = gsum l + v := by
  induction l generalizing s with
  | nil => simp at h
  | cons a l ih =>
    cases s with
    | zero => simp [gsum]; omega
    | succ s =>
      have hrec := ih s (by simpa using h)
      have hset : (a :: l).set (s + 1) v = a :: l.set s v := rfl
      rw [hset]
      simp only [gsum, List.sum_cons] at *
      simp only [List.getD_cons_succ]
      omega

theorem shiftLeft_one (k : Nat) : (1 : Nat) <<< k = 2 ^ k := by
  simp [Nat.shiftLeft_eq]

theorem le_of_land_single (v k : Nat) (h : v &&& (1 <<< k) ≠ 0) : 1 <<< k ≤ v := by
  rw [shiftLeft_one] at *
  have ht : v.testBit k = true := by
    rw [Nat.testBit_to_div_mod]
    by_contra hc
    apply h
    rw [Nat.and_two_pow]
    simp [Nat.testBit_to_div_mod] at hc ⊢
    omega
  calc 2 ^ k ≤ 2 ^ k * (v / 2 ^ k) := by
        have : 1 ≤ v / 2 ^ k := by
          rw [Nat.testBit_to_div_mod] at ht
          simp at ht
          rcases Nat.eq_zero_or_pos (v / 2 ^ k) with h0 | h0
          · rw [h0] at ht; simp at ht
          · exact h0
        nlinarith [Nat.pos_pow_of_pos k (by norm_num : 0 < 2)]
    _ ≤ v := by
        have := Nat.div_mul_le_self v (2 ^ k)
        calc 2 ^ k * (v / 2 ^ k) = v / 2 ^ k * 2 ^ k := Nat.mul_comm _ _
          _ ≤ v := Nat.div_mul_le_self v (2 ^ k)

theorem okDigit_le (d : Nat) (h : okDigit d) : d ≤ 511 := by
  rcases h with ⟨k, hk, rfl⟩
  rw [shiftLeft_one]
  calc 2 ^ k ≤ 2 ^ 8 := Nat.pow_le_pow_right (by norm_num) (by omega)
    _ ≤ 511 := by norm_num

set_option maxRecDepth 100000 in
theorem ND_eq_one_iff (v : Nat) (hv : v ≤ 511) :
    NUM_DIGITS v = 1 ↔ ∃ k, k < 9 ∧ v = 1 <<< k := by
  have h : ∀ w, w < 512 → (NUM_DIGITS w = 1 ↔ ∃ k, k < 9 ∧ w = 1 <<< k) := by decide
  exact h v (by omega)

theorem ND_single (k : Nat) (hk : k < 9) : NUM_DIGITS (1 <<< k) = 1 := by
  have h : ∀ j, j < 9 → NUM_DIGITS (1 <<< j) = 1 := by decide
  exact h k hk

theorem peersT_len (s : Nat) : (PEERS_T.getD s []).length ≤ 20 := by
  by_cases h : s < PEERS_T.length
  · have hall : ∀ u ∈ PEERS_T, u.length ≤ 20 := by decide
    have : PEERS_T.getD s [] = PEERS_T[s] := List.getD_eq_getElem PEERS_T [] h
    rw [this]
    exact hall _ (PEERS_T.getElem_mem h)
  · rw [List.getD_eq_default _ _ (by omega)]
    simp

theorem unitsT_len (s : Nat) : (UNITS_T.getD s []).length ≤ 3 := by
  by_cases h : s < UNITS_T.length
  · have hall : ∀ u ∈ UNITS_T, u.length ≤ 3 := by decide
    have : UNITS_T.getD s [] = UNITS_T[s] := List.getD_eq_getElem UNITS_T [] h
    rw [this]
    exact hall _ (UNITS_T.getElem_mem h)
  · rw [List.getD_eq_default _ _ (by omega)]
    simp

theorem gridOK_getD_le (g : List Nat) (hg : gridOK g) (s : Nat) : g.getD s 0 ≤ 511 :=
  getD_le_of_forall g s 511 hg.2

theorem gridOK_set (g : List Nat) (s v : Nat) (hg : gridOK g) (hv : v ≤ 511) :
    gridOK (g.set s v) := by
  refine ⟨by rw [List.length_set]; exact hg.1, ?_⟩
  intro x hx
  rcases List.mem_or_eq_of_mem_set hx with hx | rfl
  · exact hg.2 x hx
  · exact hv

/-- Bounds preservation: `prop` keeps the grid well-formed. -/
theorem propOK : ∀ (f : Nat) (cmd : PCmd) (g g' : List Nat) (b : Bool),
    cmdOK cmd → gridOK g → prop f cmd g = some (g', b) → gridOK g' := by
  intro f
  induction f with
  | zero => intro cmd g g' b _ _ h; cases h
  | succ f ih =>
    intro cmd g g' b hc hg h
    cases cmd with
    | fil s d =>
      rw [prop] at h
      by_cases hguard : (g.getD s 0) &&& d = 0
      · rw [if_pos hguard] at h; cases h; exact hg
      · rw [if_neg hguard] at h
        exact ih (.elimL (PEERS_T.getD s []) d) _ _ _ ⟨hc, peersT_len s⟩
          (gridOK_set g s d hg (okDigit_le d hc)) h
    | elimL ps d =>
      cases ps with
      | nil => rw [prop] at h; cases h; exact hg
      | cons p ps =>
        rw [prop] at h
        rcases hc with ⟨hd, hlen⟩
        cases h1 : prop f (.elim p d) g with
        | none => rw [h1] at h; cases h
        | some r =>
          rcases r with ⟨g1, b1⟩
          have hg1 : gridOK g1 := ih (.elim p d) _ _ _ hd hg h1
          rw [h1] at h
          cases b1 with
          | false => cases h; exact hg1
          | true =>
            exact ih (.elimL ps d) _ _ _ ⟨hd, by simp at hlen; omega⟩ hg1 h
    | elim s d =>
      rw [prop] at h
      by_cases hguard : (g.getD s 0) &&& d = 0
      · rw [if_pos hguard] at h; cases h; exact hg
      · rw [if_neg hguard] at h
        have hg1 : gridOK (g.set s (g.getD s 0 - d)) :=
          gridOK_set g s _ hg (by have := gridOK_getD_le g hg s; omega)
        cases h1 : prop f (.arc s) (g.set s (g.getD s 0 - d)) with
        | none => rw [h1] at h; cases h
        | some r =>
          rcases r with ⟨g2, b2⟩
          have hg2 : gridOK g2 := ih (.arc s) _ _ _ trivial hg1 h1
          rw [h1] at h
          cases b2 with
          | false => cases h; exact hg2
          | true => exact ih (.dual s d) _ _ _ hc hg2 h
    | arc s =>
      rw [prop] at h
      by_cases h2 : 2 ≤ NUM_DIGITS (g.getD s 0)
      · rw [if_pos h2] at h; cases h; exact hg
      · rw [if_neg h2] at h
        by_cases h1 : NUM_DIGITS (g.getD s 0) = 1
        · rw [if_pos h1] at h
          have hok : okDigit (g.getD s 0) :=
            (ND_eq_one_iff _ (gridOK_getD_le g hg s)).mp h1
          exact ih (.fil s (g.getD s 0)) _ _ _ hok hg h
        · rw [if_neg h1] at h; cases h; exact hg
    | dual s d =>
      rw [prop] at h
      exact ih (.dualL (UNITS_T.getD s []) d) _ _ _ ⟨hc, unitsT_len s⟩ hg h
    | dualL us d =>
      cases us with
      | nil => rw [prop] at h; cases h; exact hg
      | cons u us =>
        rw [prop] at h
        rcases hc with ⟨hd, hlen⟩
        rcases hscan : dscan g d u (0, 0) with ⟨n, pl⟩
        rw [hscan] at h
        match n with
        | 0 => cases h; exact hg
        | 1 =>
          have h2 : (match prop f (.fil pl d) g with
              | none => none
              | some (grid1, false) => some (grid1, false)
              | some (grid1, true) => prop f (.dualL us d) grid1) = some (g', b) := h
          cases h1 : prop f (.fil pl d) g with
          | none => rw [h1] at h2; cases h2
          | some r =>
            rcases r with ⟨g1, b1⟩
            have hg1 : gridOK g1 := ih (.fil pl d) _ _ _ hd hg h1
            rw [h1] at h2
            cases b1 with
            | false => cases h2; exact hg1
            | true =>
              exact ih (.dualL us d) _ _ _ ⟨hd, by simp at hlen; omega⟩ hg1 h2
        | n + 2 =>
          exact ih (.dualL us d) _ _ _ ⟨hd, by simp at hlen; omega⟩ hg h

theorem okDigit_pos (d : Nat) (h : okDigit d) : 1 ≤ d := by
  rcases h with ⟨k, _, rfl⟩
  rw [shiftLeft_one]
  exact Nat.pos_pow_of_pos k (by norm_num)

/-- Fuel sufficiency: with `need cmd (gsum g)` fuel, `prop` never runs out,
and the total candidate mass never grows. -/
theorem prop_total : ∀ (f : Nat) (cmd : PCmd) (g : List Nat),
    cmdOK cmd → gridOK g → need cmd (gsum g) ≤ f →
    ∃ g' b, prop f cmd g = some (g', b) ∧ gsum g' ≤ gsum g := by
  intro f
  induction f with
  | zero =>
    intro cmd g hc _ hf
    exfalso
    cases cmd <;> simp [need] at hf
  | succ f ih =>
    intro cmd g hc hg hf
    cases cmd with
    | fil s d =>
      by_cases hguard : (g.getD s 0) &&& d = 0
      · exact ⟨g, false, by rw [prop, if_pos hguard], Nat.le_refl _⟩
      · have hslt : s < g.length := lt_length_of_getD_ne_zero g s (by
          intro h0; apply hguard; rw [h0]; simp)
        have hdle : d ≤ g.getD s 0 := by
          rcases hc with ⟨k, hk, rfl⟩
          exact le_of_land_single _ _ hguard
        have hsum : gsum (g.set s d) ≤ gsum g := by
          have := gsum_set g s d hslt
          omega
        have h26 : 26 * gsum (g.set s d) ≤ 26 * gsum g := Nat.mul_le_mul_left _ hsum
        have hneed : need (.elimL (PEERS_T.getD s []) d) (gsum (g.set s d)) ≤ f := by
          simp only [need] at hf ⊢
          have := peersT_len s
          omega
        rcases ih (.elimL (PEERS_T.getD s []) d) (g.set s d) ⟨hc, peersT_len s⟩
          (gridOK_set g s d hg (okDigit_le d hc)) hneed with ⟨g', b, hrun, hs⟩
        refine ⟨g', b, ?_, by omega⟩
        rw [prop, if_neg hguard]
        exact hrun
    | elimL ps d =>
      rcases hc with ⟨hd, hlen⟩
      cases ps with
      | nil => exact ⟨g, true, by rw [prop], Nat.le_refl _⟩
      | cons p ps =>
        have hneed1 : need (.elim p d) (gsum g) ≤ f := by
          simp only [need, List.length_cons] at hf ⊢; omega
        rcases ih (.elim p d) g hd hg hneed1 with ⟨g1, b1, hrun1, hs1⟩
        have hg1 : gridOK g1 := propOK f (.elim p d) g g1 b1 hd hg hrun1
        cases b1 with
        | false => exact ⟨g1, false, by rw [prop, hrun1], hs1⟩
        | true =>
          have h26 : 26 * gsum g1 ≤ 26 * gsum g := Nat.mul_le_mul_left _ hs1
          have hneed2 : need (.elimL ps d) (gsum g1) ≤ f := by
            simp only [need, List.length_cons] at hf ⊢; omega
          rcases ih (.elimL ps d) g1 ⟨hd, by simp at hlen; omega⟩ hg1 hneed2 with
            ⟨g', b, hrun2, hs2⟩
          exact ⟨g', b, by rw [prop, hrun1]; exact hrun2, by omega⟩
    | elim s d =>
      by_cases hguard : (g.getD s 0) &&& d = 0
      · exact ⟨g, true, by rw [prop, if_pos hguard], Nat.le_refl _⟩
      · have hslt : s < g.length := lt_length_of_getD_ne_zero g s (by
          intro h0; apply hguard; rw [h0]; simp)
        have hdle : d ≤ g.getD s 0 := by
          rcases hc with ⟨k, hk, rfl⟩
          exact le_of_land_single _ _ hguard
        have hdpos : 1 ≤ d := okDigit_pos d hc
        have hsum : gsum (g.set s (g.getD s 0 - d)) + d = gsum g := by
          have := gsum_set g s (g.getD s 0 - d) hslt
          omega
        have hg1 : gridOK (g.set s (g.getD s 0 - d)) :=
          gridOK_set g s _ hg (by have := gridOK_getD_le g hg s; omega)
        have h26 : 26 * gsum (g.set s (g.getD s 0 - d)) + 26 ≤ 26 * gsum g := by omega
        have hneedA : need (.arc s) (gsum (g.set s (g.getD s 0 - d))) ≤ f := by
          simp only [need] at hf ⊢; omega
        rcases ih (.arc s) _ trivial hg1 hneedA with ⟨g2, b2, hrun2, hs2⟩
        have hg2 : gridOK g2 := propOK f (.arc s) _ g2 b2 trivial hg1 hrun2
        cases b2 with
        | false =>
          refine ⟨g2, false, ?_, by omega⟩
          rw [prop, if_neg hguard, hrun2]
        | true =>
          have hneedD : need (.dual s d) (gsum g2) ≤ f := by
            simp only [need] at hf ⊢
            have : 26 * gsum g2 ≤ 26 * gsum (g.set s (g.getD s 0 - d)) :=
              Nat.mul_le_mul_left _ hs2
            omega
          rcases ih (.dual s d) g2 hc hg2 hneedD with ⟨g', b, hrun3, hs3⟩
          refine ⟨g', b, ?_, by omega⟩
          rw [prop, if_neg hguard, hrun2]
          exact hrun3
    | arc s =>
      by_cases h2 : 2 ≤ NUM_DIGITS (g.getD s 0)
      · exact ⟨g, true, by rw [prop, if_pos h2], Nat.le_refl _⟩
      · by_cases h1 : NUM_DIGITS (g.getD s 0) = 1
        · have hok : okDigit (g.getD s 0) :=
            (ND_eq_one_iff _ (gridOK_getD_le g hg s)).mp h1
          have hneed : need (.fil s (g.getD s 0)) (gsum g) ≤ f := by
            simp only [need] at hf ⊢; omega
          rcases ih (.fil s (g.getD s 0)) g hok hg hneed with ⟨g', b, hrun, hs⟩
          refine ⟨g', b, ?_, hs⟩
          rw [prop, if_neg h2, if_pos h1]
          exact hrun
        · exact ⟨g, false, by rw [prop, if_neg h2, if_neg h1], Nat.le_refl _⟩
    | dual s d =>
      have hneed : need (.dualL (UNITS_T.getD s []) d) (gsum g) ≤ f := by
        simp only [need] at hf ⊢
        have := unitsT_len s
        omega
      rcases ih (.dualL (UNITS_T.getD s []) d) g ⟨hc, unitsT_len s⟩ hg hneed with
        ⟨g', b, hrun, hs⟩
      exact ⟨g', b, by rw [prop]; exact hrun, hs⟩
    | dualL us d =>
      rcases hc with ⟨hd, hlen⟩
      cases us with
      | nil => exact ⟨g, true, by rw [prop], Nat.le_refl _⟩
      | cons u us =>
        rcases hscan : dscan g d u (0, 0) with ⟨n, pl⟩
        match n with
        | 0 => exact ⟨g, false, by rw [prop, hscan], Nat.le_refl _⟩
        | 1 =>
          have hneedF : need (.fil pl d) (gsum g) ≤ f := by
            simp only [need, List.length_cons] at hf ⊢; omega
          rcases ih (.fil pl d) g hd hg hneedF with ⟨g1, b1, hrun1, hs1⟩
          have hg1 : gridOK g1 := propOK f (.fil pl d) g g1 b1 hd hg hrun1
          cases b1 with
          | false =>
            refine ⟨g1, false, ?_, hs1⟩
            rw [prop, hscan]
            show (match prop f (.fil pl d) g with
              | none => none
              | some (grid1, false) => some (grid1, false)
              | some (grid1, true) => prop f (.dualL us d) grid1) = some (g1, false)
            rw [hrun1]
          | true =>
            have h26 : 26 * gsum g1 ≤ 26 * gsum g := Nat.mul_le_mul_left _ hs1
            have hneed2 : need (.dualL us d) (gsum g1) ≤ f := by
              simp only [need, List.length_cons] at hf ⊢; omega
            rcases ih (.dualL us d) g1 ⟨hd, by simp at hlen; omega⟩ hg1 hneed2 with
              ⟨g', b, hrun2, hs2⟩
            refine ⟨g', b, ?_, by omega⟩
            rw [prop, hscan]
            show (match prop f (.fil pl d) g with
              | none => none
              | some (grid1, false) => some (grid1, false)
              | some (grid1, true) => prop f (.dualL us d) grid1) = some (g', b)
            rw [hrun1]
            exact hrun2
        | n + 2 =>
          have hneed2 : need (.dualL us d) (gsum g) ≤ f := by
            simp only [need, List.length_cons] at hf ⊢; omega
          rcases ih (.dualL us d) g ⟨hd, by simp at hlen; omega⟩ hg hneed2 with
            ⟨g', b, hrun2, hs2⟩
          exact ⟨g', b, by rw [prop, hscan]; exact hrun2, hs2⟩

theorem land_single_single (j k : Nat) (hj : j < 9) (hk : k < 9)
    (h : (1 <<< j) &&& (1 <<< k) ≠ 0) : j = k := by
  have hall : ∀ j, j < 9 → ∀ k, k < 9 → ((1 <<< j) &&& (1 <<< k) ≠ 0 → j = k) := by decide
  exact hall j hj k hk h

theorem set_getD_self_eq (g : List Nat) (s : Nat) (h : s < g.length) :
    g.set s (g.getD s 0) = g := by
  induction g generalizing s with
  | nil => simp at h
  | cons a l ih =>
    cases s with
    | zero => rfl
    | succ s =>
      have := ih s (by simpa using h)
      simp only [List.getD_cons_succ]
      calc (a :: l).set (s + 1) (l.getD s 0) = a :: l.set s (l.getD s 0) := rfl
        _ = a :: l := by rw [this]

theorem single_eq_of_det (g : List Nat) (s d : Nat) (hg : gridOK g)
    (h1 : NUM_DIGITS (g.getD s 0) = 1) (hd : okDigit d)
    (hland : g.getD s 0 &&& d ≠ 0) : g.getD s 0 = d := by
  rcases (ND_eq_one_iff _ (gridOK_getD_le g hg s)).mp h1 with ⟨j, hj, hgj⟩
  rcases hd with ⟨k, hk, rfl⟩
  rw [hgj] at hland ⊢
  rw [land_single_single j k hj hk hland]

theorem arc_true_ne_zero (f : Nat) (s : Nat) (g g' : List Nat)
    (h : prop f (.arc s) g = some (g', true)) : g.getD s 0 ≠ 0 := by
  cases f with
  | zero => cases h
  | succ f =>
    rw [prop] at h
    by_cases h2 : 2 ≤ NUM_DIGITS (g.getD s 0)
    · intro h0; rw [h0] at h2; simp [NUM_DIGITS] at h2
    · rw [if_neg h2] at h
      by_cases h1 : NUM_DIGITS (g.getD s 0) = 1
      · intro h0; rw [h0] at h1; simp [NUM_DIGITS] at h1
      · rw [if_neg h1] at h; cases h

theorem dscan_one_bit (g : List Nat) (d : Nat) : ∀ (u : List Nat) (c0 p0 pl : Nat),
    dscan g d u (c0, p0) = (1, pl) → (c0 = 1 ∧ p0 = pl) ∨ g.getD pl 0 &&& d ≠ 0 := by
  intro u
  induction u with
  | nil =>
    intro c0 p0 pl h
    rw [dscan] at h
    injection h with h1 h2
    exact Or.inl ⟨h1, h2⟩
  | cons s2 rest ih =>
    intro c0 p0 pl h
    rw [dscan] at h
    by_cases hbit : (g.getD s2 0) &&& d ≠ 0
    · rw [if_pos hbit] at h
      by_cases hc : c0 + 1 > 1
      · rw [if_pos hc] at h
        injection h with h1 _
        omega
      · rw [if_neg hc] at h
        rcases ih (c0 + 1) s2 pl h with ⟨_, rfl⟩ | hr
        · exact Or.inr hbit
        · exact Or.inr hr
    · rw [if_neg hbit] at h
      exact ih c0 p0 pl h

/-- Determined-cell preservation: a successful propagation call never
changes a cell that already held a single digit (after the call's own
assignment, in the case of `fill`). -/
theorem pres : ∀ (f : Nat) (cmd : PCmd) (g g' : List Nat),
    cmdOK cmd → gridOK g → prop f cmd g = some (g', true) →
    ∀ i, NUM_DIGITS ((base cmd g).getD i 0) = 1 → g'.getD i 0 = (base cmd g).getD i 0 := by
  intro f
  induction f with
  | zero => intro cmd g g' _ _ h; cases h
  | succ f ih =>
    intro cmd g g' hc hg h
    cases cmd with
    | fil s d =>
      rw [prop] at h
      by_cases hguard : (g.getD s 0) &&& d = 0
      · rw [if_pos hguard] at h; cases h
      · rw [if_neg hguard] at h
        have hgset : gridOK (g.set s d) := gridOK_set g s d hg (okDigit_le d hc)
        have := ih (.elimL (PEERS_T.getD s []) d) (g.set s d) g'
          ⟨hc, peersT_len s⟩ hgset h
        simpa [base] using this
    | elimL ps d =>
      rcases hc with ⟨hd, hlen⟩
      cases ps with
      | nil => rw [prop] at h; cases h; intro i _; rfl
      | cons p ps =>
        rw [prop] at h
        cases h1 : prop f (.elim p d) g with
        | none => rw [h1] at h; cases h
        | some r =>
          rcases r with ⟨g1, b1⟩
          rw [h1] at h
          cases b1 with
          | false => cases h
          | true =>
            have hg1 : gridOK g1 := propOK f (.elim p d) g g1 true hd hg h1
            have hp1 := ih (.elim p d) g g1 hd hg h1
            have hp2 := ih (.elimL ps d) g1 g' ⟨hd, by simp at hlen; omega⟩ hg1 h
            intro i hdet
            simp only [base] at hp1 hp2 ⊢
            have e1 : g1.getD i 0 = g.getD i 0 := hp1 i hdet
            have e2 : g'.getD i 0 = g1.getD i 0 := hp2 i (by rw [e1]; exact hdet)
            rw [e2, e1]
    | elim s d =>
      rw [prop] at h
      by_cases hguard : (g.getD s 0) &&& d = 0
      · rw [if_pos hguard] at h; cases h; intro i _; rfl
      · rw [if_neg hguard] at h
        have hslt : s < g.length := lt_length_of_getD_ne_zero g s (by
          intro h0; apply hguard; rw [h0]; simp)
        have hg1 : gridOK (g.set s (g.getD s 0 - d)) :=
          gridOK_set g s _ hg (by have := gridOK_getD_le g hg s; omega)
        cases h1 : prop f (.arc s) (g.set s (g.getD s 0 - d)) with
        | none => rw [h1] at h; cases h
        | some r =>
          rcases r with ⟨g2, b2⟩
          rw [h1] at h
          cases b2 with
          | false => cases h
          | true =>
            have hg2 : gridOK g2 := propOK f (.arc s) _ g2 true trivial hg1 h1
            have hp1 := ih (.arc s) _ g2 trivial hg1 h1
            have hp2 := ih (.dual s d) g2 g' hc hg2 h
            intro i hdet
            simp only [base] at hp1 hp2 ⊢
            by_cases his : i = s
            · subst his
              exfalso
              have heq : g.getD i 0 = d := single_eq_of_det g i d hg hdet hc hguard
              have h0 : (g.set i (g.getD i 0 - d)).getD i 0 = 0 := by
                rw [getD_set_self _ _ _ hslt]; omega
              exact arc_true_ne_zero f i _ g2 h1 h0
            · have e0 : (g.set s (g.getD s 0 - d)).getD i 0 = g.getD i 0 :=
                getD_set_ne g s _ i his
              have e1 : g2.getD i 0 = g.getD i 0 := by
                have hx := hp1 i (by rw [e0]; exact hdet)
                rw [hx, e0]
              have e2 : g'.getD i 0 = g2.getD i 0 := hp2 i (by rw [e1]; exact hdet)
              rw [e2, e1]
    | arc s =>
      rw [prop] at h
      by_cases h2 : 2 ≤ NUM_DIGITS (g.getD s 0)
      · rw [if_pos h2] at h; cases h; intro i _; rfl
      · rw [if_neg h2] at h
        by_cases h1 : NUM_DIGITS (g.getD s 0) = 1
        · rw [if_pos h1] at h
          have hslt : s < g.length := lt_length_of_getD_ne_zero g s (by
            intro h0; rw [h0] at h1; simp [NUM_DIGITS] at h1)
          have hok : okDigit (g.getD s 0) :=
            (ND_eq_one_iff _ (gridOK_getD_le g hg s)).mp h1
          have hp := ih (.fil s (g.getD s 0)) g g' hok hg h
          intro i hdet
          simp only [base] at hp ⊢
          have hbase : g.set s (g.getD s 0) = g := set_getD_self_eq g s hslt
          rw [hbase] at hp
          exact hp i hdet
        · rw [if_neg h1] at h; cases h
    | dual s d =>
      rw [prop] at h
      have hp := ih (.dualL (UNITS_T.getD s []) d) g g' ⟨hc, unitsT_len s⟩ hg h
      intro i hdet
      simpa [base] using hp i (by simpa [base] using hdet)
    | dualL us d =>
      rcases hc with ⟨hd, hlen⟩
      cases us with
      | nil => rw [prop] at h; cases h; intro i _; rfl
      | cons u us =>
        rw [prop] at h
        rcases hscan : dscan g d u (0, 0) with ⟨n, pl⟩
        rw [hscan] at h
        match n with
        | 0 => cases h
        | 1 =>
          have h2 : (match prop f (.fil pl d) g with
              | none => none
              | some (grid1, false) => some (grid1, false)
              | some (grid1, true) => prop f (.dualL us d) grid1) = some (g', true) := h
          cases h1 : prop f (.fil pl d) g with
          | none => rw [h1] at h2; cases h2
          | some r =>
            rcases r with ⟨g1, b1⟩
            rw [h1] at h2
            cases b1 with
            | false => cases h2
            | true =>
              have hg1 : gridOK g1 := propOK f (.fil pl d) g g1 true hd hg h1
              have hp1 := ih (.fil pl d) g g1 hd hg h1
              have hp2 := ih (.dualL us d) g1 g' ⟨hd, by simp at hlen; omega⟩ hg1 h2
              intro i hdet
              simp only [base] at hp1 hp2 ⊢
              have hbit : g.getD pl 0 &&& d ≠ 0 := by
                rcases dscan_one_bit g d u 0 0 pl hscan with ⟨hcon, _⟩ | hr
                · cases hcon
                · exact hr
              have hpllt : pl < g.length := lt_length_of_getD_ne_zero g pl (by
                intro h0; apply hbit; rw [h0]; simp)
              -- determined cells of g are determined (same value) in g.set pl d
              have hbase : ∀ j, NUM_DIGITS (g.getD j 0) = 1 →
                  (g.set pl d).getD j 0 = g.getD j 0 := by
                intro j hj
                by_cases hjp : j = pl
                · subst hjp
                  have heq : g.getD j 0 = d := single_eq_of_det g j d hg hj hd hbit
                  rw [getD_set_self _ _ _ hpllt, heq]
                · exact getD_set_ne g pl d j hjp
              have e1 : g1.getD i 0 = g.getD i 0 := by
                have := hp1 i (by rw [hbase i hdet]; exact hdet)
                rw [this, hbase i hdet]
              have e2 : g'.getD i 0 = g1.getD i 0 := hp2 i (by rw [e1]; exact hdet)
              rw [e2, e1]
        | n + 2 =>
          have hp := ih (.dualL us d) g g' ⟨hd, by simp at hlen; omega⟩ hg h
          intro i hdet
          simpa [base] using hp i (by simpa [base] using hdet)

theorem dCount_le (g : List Nat) : dCount g ≤ 81 := by
  calc dCount g ≤ (Finset.range 81).card := Finset.card_filter_le _ _
    _ = 81 := Finset.card_range 81

theorem dCount_le_80 (g : List Nat) (s : Nat) (hs : s < 81)
    (h2 : 2 ≤ NUM_DIGITS (g.getD s 0)) : dCount g ≤ 80 := by
  have hsub : (Finset.range 81).filter (fun i => NUM_DIGITS (g.getD i 0) = 1) ⊆
      (Finset.range 81).erase s := by
    intro i hi
    rcases Finset.mem_filter.mp hi with ⟨hir, hdet⟩
    refine Finset.mem_erase.mpr ⟨?_, hir⟩
    intro heq; rw [heq] at hdet; omega
  calc dCount g ≤ ((Finset.range 81).erase s).card := Finset.card_le_card hsub
    _ = 81 - 1 := by rw [Finset.card_erase_of_mem (Finset.mem_range.mpr hs), Finset.card_range]
    _ = 80 := rfl

/-- A successful `fill` on a cell that still had at least two candidates
strictly increases the number of determined cells. -/
theorem fill_det (f : Nat) (g g' : List Nat) (s d : Nat) (hd : okDigit d) (hg : gridOK g)
    (h2 : 2 ≤ NUM_DIGITS (g.getD s 0)) (h : prop f (.fil s d) g = some (g', true)) :
    dCount g < dCount g' := by
  have hslt : s < g.length := lt_length_of_getD_ne_zero g s (by
    intro h0; rw [h0] at h2; simp [NUM_DIGITS] at h2)
  have hs81 : s < 81 := by rw [hg.1] at hslt; exact hslt
  have hp := pres f (.fil s d) g g' hd hg h
  simp only [base] at hp
  have hndd : NUM_DIGITS d = 1 := by
    rcases hd with ⟨k, hk, rfl⟩; exact ND_single k hk
  have hsetself : (g.set s d).getD s 0 = d := getD_set_self g s d hslt
  have hsub : (Finset.range 81).filter (fun i => NUM_DIGITS (g.getD i 0) = 1) ⊆
      (Finset.range 81).filter (fun i => NUM_DIGITS (g'.getD i 0) = 1) := by
    intro i hi
    rcases Finset.mem_filter.mp hi with ⟨hir, hdet⟩
    have hne : i ≠ s := by intro he; rw [he] at hdet; omega
    have hset : (g.set s d).getD i 0 = g.getD i 0 := getD_set_ne g s d i hne
    have hdet' : NUM_DIGITS ((g.set s d).getD i 0) = 1 := by rw [hset]; exact hdet
    refine Finset.mem_filter.mpr ⟨hir, ?_⟩
    rw [hp i hdet', hset]
    exact hdet
  have hsmem : s ∈ (Finset.range 81).filter (fun i => NUM_DIGITS (g'.getD i 0) = 1) := by
    refine Finset.mem_filter.mpr ⟨Finset.mem_range.mpr hs81, ?_⟩
    have hdet' : NUM_DIGITS ((g.set s d).getD s 0) = 1 := by rw [hsetself]; exact hndd
    rw [hp s hdet', hsetself]
    exact hndd
  have hsnot : s ∉ (Finset.range 81).filter (fun i => NUM_DIGITS (g.getD i 0) = 1) := by
    intro hmem
    rcases Finset.mem_filter.mp hmem with ⟨_, hdet⟩
    omega
  refine Finset.card_lt_card ?_
  rw [Finset.ssubset_def]
  refine ⟨hsub, ?_⟩
  intro hrev
  exact hsnot (hrev hsmem)

theorem gsum_le_of_gridOK (g : List Nat) (hg : gridOK g) : gsum g ≤ 41391 := by
  have := List.sum_le_card_nsmul g 511 hg.2
  rw [hg.1] at this
  simpa [gsum] using this

theorem digits_ok : ∀ d ∈ DIGITS, okDigit d := by
  intro d hd
  fin_cases hd
  · exact ⟨0, by omega, rfl⟩
  · exact ⟨1, by omega, rfl⟩
  · exact ⟨2, by omega, rfl⟩
  · exact ⟨3, by omega, rfl⟩
  · exact ⟨4, by omega, rfl⟩
  · exact ⟨5, by omega, rfl⟩
  · exact ⟨6, by omega, rfl⟩
  · exact ⟨7, by omega, rfl⟩
  · exact ⟨8, by omega, rfl⟩

/-- `fill` with the standard fuel always returns on a well-formed grid. -/
theorem fill_total (g : List Nat) (s d : Nat) (hd : okDigit d) (hg : gridOK g) :
    ∃ g1 b, fill g s d = some (g1, b) ∧ gsum g1 ≤ gsum g := by
  have hneed : need (.fil s d) (gsum g) ≤ FUEL := by
    have := gsum_le_of_gridOK g hg
    simp only [need, FUEL]
    omega
  exact prop_total FUEL (.fil s d) g hd hg hneed

/-- The search with the 81-slot pool and fuel 1000 never fails on the
embedding side: the fuel is never exhausted, no `fill` runs out of its
fuel, and every `gridpool[level]` access is within bounds. -/
theorem srch_total : ∀ f : Nat,
    (∀ (pool : List (List Nat)) (level : Nat) (g : List Nat) (cnt : Nat),
      pool.length = 81 → gridOK g → level ≤ dCount g → 12 * (82 - level) ≤ f →
      ∃ r pool2 c2, srch f pool level (.go (some g)) cnt = some (r, pool2, c2) ∧
        pool2.length = 81) ∧
    (∀ (pool : List (List Nat)) (level : Nat) (g : List Nat) (s : Nat) (ds : List Nat)
      (cnt : Nat),
      pool.length = 81 → gridOK g → level ≤ dCount g → selectSquare g = some s →
      (∀ d ∈ ds, okDigit d) → ds.length ≤ 9 →
      ds.length + 1 + 12 * (81 - level) ≤ f →
      ∃ r pool2 c2, srch f pool level (.tryd g s ds) cnt = some (r, pool2, c2) ∧
        pool2.length = 81) := by
  intro f
  induction f with
  | zero =>
    constructor
    · intro pool level g cnt _ _ hlev hf
      exfalso
      have := dCount_le g
      omega
    · intro pool level g s ds cnt _ _ _ _ _ _ hf
      exfalso; omega
  | succ f ih =>
    rcases ih with ⟨IHgo, IHtry⟩
    constructor
    · -- go case
      intro pool level g cnt hpool hg hlev hf
      cases hsel : selectSquare g with
      | none =>
        exact ⟨some g, pool, cnt, by rw [srch, hsel], hpool⟩
      | some s =>
        have hdok : ∀ d ∈ DIGITS, okDigit d := digits_ok
        have hlev81 : level ≤ 81 := le_trans hlev (dCount_le g)
        have hfuel : (DIGITS.length) + 1 + 12 * (81 - level) ≤ f := by
          have h9 : DIGITS.length = 9 := rfl
          rw [h9]
          omega
        rcases IHtry pool level g s DIGITS cnt hpool hg hlev hsel hdok (by rfl) hfuel with
          ⟨r, pool2, c2, hrun, hlen2⟩
        exact ⟨r, pool2, c2, by rw [srch, hsel]; exact hrun, hlen2⟩
    · -- tryd case
      intro pool level g s ds cnt hpool hg hlev hsel hds hdslen hf
      rcases selectSquare_some_spec g s hsel with ⟨hs81, hnd2, _, _⟩
      cases ds with
      | nil => exact ⟨none, pool, cnt, by rw [srch], hpool⟩
      | cons d ds =>
        by_cases hbit : d &&& g.getD s 0 ≠ 0
        · have hlevlt : level < pool.length := by
            have h80 := dCount_le_80 g s hs81 hnd2
            omega
          have hdok : okDigit d := hds d (List.mem_cons_self _ _)
          rcases fill_total g s d hdok hg with ⟨g1, b, hfill, _⟩
          have hg1 : gridOK g1 := propOK FUEL (.fil s d) g g1 b hdok hg hfill
          have hlen1 : (pool.set level g1).length = 81 := by
            rw [List.length_set]; exact hpool
          cases b with
          | true =>
            have hdc : dCount g < dCount g1 := fill_det FUEL g g1 s d hdok hg hnd2 hfill
            have hdive := IHgo (pool.set level g1) (level + 1) g1 cnt hlen1 hg1
              (by omega) (by omega)
            rcases hdive with ⟨r, pool2, c2, hrun2, hlen2⟩
            cases r with
            | some res =>
              refine ⟨some res, pool2, c2, ?_, hlen2⟩
              rw [srch, if_pos hbit, if_pos hlevlt, hfill]
              show (match srch (f) (pool.set level g1) (level + 1) (SCmd.go (some g1)) cnt with
                | none => none
                | some (some result, pool2, cnt2) => some (some result, pool2, cnt2)
                | some (none, pool2, cnt2) =>
                  srch f pool2 level (SCmd.tryd g s ds) (cnt2 + 1)) = _
              rw [hrun2]
            | none =>
              have hcont := IHtry pool2 level g s ds (c2 + 1) hlen2 hg hlev hsel
                (fun x hx => hds x (List.mem_cons_of_mem _ hx))
                (by simp at hdslen; omega) (by simp at hf; omega)
              rcases hcont with ⟨r3, pool3, c3, hrun3, hlen3⟩
              refine ⟨r3, pool3, c3, ?_, hlen3⟩
              rw [srch, if_pos hbit, if_pos hlevlt, hfill]
              show (match srch (f) (pool.set level g1) (level + 1) (SCmd.go (some g1)) cnt with
                | none => none
                | some (some result, pool2, cnt2) => some (some result, pool2, cnt2)
                | some (none, pool2, cnt2) =>
                  srch f pool2 level (SCmd.tryd g s ds) (cnt2 + 1)) = _
              rw [hrun2]
              exact hrun3
          | false =>
            -- fill failed: the recursive call is search(nil) which
            -- consumes one level of fuel and reports failure
            have hf1 : 1 ≤ f := by omega
            obtain ⟨f', rfl⟩ : ∃ f', f = f' + 1 := ⟨f - 1, by omega⟩
            have hdive : srch (f' + 1) (pool.set level g1) (level + 1) (.go none) cnt =
                some (none, pool.set level g1, cnt) := by rw [srch]
            have hcont := IHtry (pool.set level g1) level g s ds (cnt + 1) hlen1 hg hlev hsel
              (fun x hx => hds x (List.mem_cons_of_mem _ hx))
              (by simp at hdslen; omega) (by simp at hf; omega)
            rcases hcont with ⟨r3, pool3, c3, hrun3, hlen3⟩
            refine ⟨r3, pool3, c3, ?_, hlen3⟩
            rw [srch, if_pos hbit, if_pos hlevlt, hfill]
            show (match srch (f' + 1) (pool.set level g1) (level + 1) (SCmd.go none) cnt with
              | none => none
              | some (some result, pool2, cnt2) => some (some result, pool2, cnt2)
              | some (none, pool2, cnt2) =>
                srch (f' + 1) pool2 level (SCmd.tryd g s ds) (cnt2 + 1)) = _
            rw [hdive]
            exact hrun3
        · have hcont := IHtry pool level g s ds cnt hpool hg hlev hsel
            (fun x hx => hds x (List.mem_cons_of_mem _ hx))
            (by simp at hdslen; omega) (by simp at hf; omega)
          rcases hcont with ⟨r3, pool3, c3, hrun3, hlen3⟩
          refine ⟨r3, pool3, c3, ?_, hlen3⟩
          rw [srch, if_neg hbit]
          exact hrun3

theorem PEERS_T_eq : PEERS_T = SQUARES.map PEERS := by rfl

theorem UNITS_T_eq : UNITS_T = SQUARES.map UNITS := by rfl

theorem all_units_lt : ∀ u ∈ ALL_UNITS, ∀ x ∈ u, x < 81 := by decide

theorem PEERS_big (s : Nat) (hs : 81 ≤ s) : PEERS s = [] := by
  have hu : UNITS s = [] := by
    rw [UNITS, List.filter_eq_nil_iff]
    intro u hu
    simp only [Bool.not_eq_true]
    rw [member, List.any_eq_false]
    intro x hx
    have hlt := all_units_lt u hu x hx
    intro hxe
    have : x = s := by simpa using hxe
    omega
  rw [PEERS, hu]
  rfl

theorem PEERS_T_getD (s : Nat) : PEERS_T.getD s [] = PEERS s := by
  by_cases hs : s < 81
  · rw [PEERS_T_eq]
    have hlen : s < (SQUARES.map PEERS).length := by
      rw [List.length_map]
      simpa [SQUARES] using hs
    rw [List.getD_eq_getElem _ _ hlen, List.getElem_map]
    congr 1
    simp [SQUARES]
  · rw [List.getD_eq_default, PEERS_big s (by omega)]
    rw [PEERS_T_eq, List.length_map]
    simp only [SQUARES, List.length_range]
    omega

theorem PEERS_len (s : Nat) (hs : s < 81) : (PEERS s).length = 20 := by
  rw [← PEERS_T_getD]
  have hall : ∀ u ∈ PEERS_T, u.length = 20 := by decide
  have hlen : s < PEERS_T.length := by rw [PEERS_T_eq, List.length_map]; simpa [SQUARES] using hs
  rw [List.getD_eq_getElem _ _ hlen]
  exact hall _ (PEERS_T.getElem_mem hlen)

theorem fil_true_guard (f : Nat) (g g2 : List Nat) (s d : Nat)
    (h : prop f (.fil s d) g = some (g2, true)) : g.getD s 0 &&& d ≠ 0 := by
  cases f with
  | zero => cases h
  | succ f =>
    rw [prop] at h
    by_cases hguard : g.getD s 0 &&& d = 0
    · rw [if_pos hguard] at h; cases h
    · exact hguard

/-- C5: each successful `fill` during search, applied to a square that
still had at least two candidates, leaves at least one more determined cell
than before; consequently `search`, run with the 81-slot `gridpool`
allocated by `solveList` (`pool0`) and fuel covering recursion depth 81,
returns an ordinary result on every well-formed grid -- the embedding's
crash marker `none`, which covers fuel exhaustion and out-of-bounds
`gridpool[level]` access, never occurs. -/
theorem claim_C5 :
    (∀ (f : Nat) (g g2 : List Nat) (s d : Nat),
      okDigit d → gridOK g → 2 ≤ NUM_DIGITS (g.getD s 0) →
      prop f (.fil s d) g = some (g2, true) → dCount g < dCount g2) ∧
    (∀ (g : List Nat) (cnt : Nat), gridOK g →
      ∃ r pool2 c2, srch SFUEL pool0 0 (.go (some g)) cnt = some (r, pool2, c2)) := by
  constructor
  · exact fun f g g2 s d hd hg h2 h => fill_det f g g2 s d hd hg h2 h
  · intro g cnt hg
    have hlen : pool0.length = 81 := by simp [pool0]
    have hfuel : 12 * (82 - 0) ≤ SFUEL := by norm_num [SFUEL]
    rcases (srch_total SFUEL).1 pool0 0 g cnt hlen hg (by omega) hfuel with
      ⟨r, pool2, c2, hrun, _⟩
    exact ⟨r, pool2, c2, hrun⟩

theorem gridOK_replicate : gridOK (List.replicate 81 511) := by
  refine ⟨by simp, ?_⟩
  intro x hx
  rw [List.eq_of_mem_replicate hx]

set_option maxRecDepth 1000000 in
/-- Witness for C5 at concrete inputs: filling digit 1 into cell 0 of the
all-blank grid increases the determined-cell count, and the search returns
an ordinary result on the all-blank grid. -/
theorem claim_C5_witness :
    dCount (List.replicate 81 511) < dCount w5grid ∧
    (∃ r pool2 c2,
      srch SFUEL pool0 0 (.go (some (List.replicate 81 511))) 0 = some (r, pool2, c2)) :=
  ⟨claim_C5.1 FUEL (List.replicate 81 511) w5grid 0 1 ⟨0, by omega, rfl⟩ gridOK_replicate
      (by decide) (by rfl),
    claim_C5.2 (List.replicate 81 511) 0 gridOK_replicate⟩

/-- C7: `search` tries the candidate digits of the selected square in
increasing digit order (the `DIGITS` table), skipping non-candidates
without touching the counter; for each candidate it copies the grid into
`gridpool[level]` and fills there; if the recursive search yields a
solution it is returned immediately with no later candidate tried, and
each candidate that fails -- `fill` failing, or the recursive call
returning nil -- increments the backtrack counter by exactly one before
the next candidate. -/
theorem claim_C7 :
    DIGITS = [1, 2, 4, 8, 16, 32, 64, 128, 256] ∧
    (∀ (f : Nat) (pool : List (List Nat)) (level : Nat) (g : List Nat) (s cnt : Nat),
      selectSquare g = some s →
      srch (f + 1) pool level (.go (some g)) cnt = srch f pool level (.tryd g s DIGITS) cnt) ∧
    (∀ (f : Nat) (pool : List (List Nat)) (level : Nat) (g : List Nat) (s d : Nat)
      (ds : List Nat) (cnt : Nat), d &&& g.getD s 0 = 0 →
      srch (f + 1) pool level (.tryd g s (d :: ds)) cnt =
        srch f pool level (.tryd g s ds) cnt) ∧
    (∀ (f : Nat) (pool : List (List Nat)) (level : Nat) (g g1 : List Nat) (s d : Nat)
      (ds : List Nat) (cnt : Nat) (r : List Nat) (pool2 : List (List Nat)) (c2 : Nat),
      d &&& g.getD s 0 ≠ 0 → level < pool.length → fill g s d = some (g1, true) →
      srch f (pool.set level g1) (level + 1) (.go (some g1)) cnt = some (some r, pool2, c2) →
      srch (f + 1) pool level (.tryd g s (d :: ds)) cnt = some (some r, pool2, c2)) ∧
    (∀ (f : Nat) (pool : List (List Nat)) (level : Nat) (g g1 : List Nat) (s d : Nat)
      (ds : List Nat) (cnt : Nat) (pool2 : List (List Nat)) (c2 : Nat),
      d &&& g.getD s 0 ≠ 0 → level < pool.length → fill g s d = some (g1, true) →
      srch f (pool.set level g1) (level + 1) (.go (some g1)) cnt = some (none, pool2, c2) →
      srch (f + 1) pool level (.tryd g s (d :: ds)) cnt =
        srch f pool2 level (.tryd g s ds) (c2 + 1)) ∧
    (∀ (f : Nat) (pool : List (List Nat)) (level : Nat) (g g1 : List Nat) (s d : Nat)
      (ds : List Nat) (cnt : Nat),
      d &&& g.getD s 0 ≠ 0 → level < pool.length → fill g s d = some (g1, false) →
      srch (f + 2) pool level (.tryd g s (d :: ds)) cnt =
        srch (f + 1) (pool.set level g1) level (.tryd g s ds) (cnt + 1)) := by
  refine ⟨rfl, ?_, ?_, ?_, ?_, ?_⟩
  · intro f pool level g s cnt hsel
    rw [srch, hsel]
  · intro f pool level g s d ds cnt hbit
    rw [srch, if_neg (by simpa using hbit)]
  · intro f pool level g g1 s d ds cnt r pool2 c2 hbit hlev hfill hdive
    rw [srch, if_pos hbit, if_pos hlev, hfill]
    show (match srch f (pool.set level g1) (level + 1) (SCmd.go (some g1)) cnt with
      | none => none
      | some (some result, pool2, cnt2) => some (some result, pool2, cnt2)
      | some (none, pool2, cnt2) =>
        srch f pool2 level (SCmd.tryd g s ds) (cnt2 + 1)) = _
    rw [hdive]
  · intro f pool level g g1 s d ds cnt pool2 c2 hbit hlev hfill hdive
    rw [srch, if_pos hbit, if_pos hlev, hfill]
    show (match srch f (pool.set level g1) (level + 1) (SCmd.go (some g1)) cnt with
      | none => none
      | some (some result, pool2, cnt2) => some (some result, pool2, cnt2)
      | some (none, pool2, cnt2) =>
        srch f pool2 level (SCmd.tryd g s ds) (cnt2 + 1)) = _
    rw [hdive]
  · intro f pool level g g1 s d ds cnt hbit hlev hfill
    rw [srch, if_pos hbit, if_pos hlev, hfill]
    show (match srch (f + 1) (pool.set level g1) (level + 1) (SCmd.go none) cnt with
      | none => none
      | some (some result, pool2, cnt2) => some (some result, pool2, cnt2)
      | some (none, pool2, cnt2) =>
        srch (f + 1) pool2 level (SCmd.tryd g s ds) (cnt2 + 1)) = _
    rw [show srch (f + 1) (pool.set level g1) (level + 1) (SCmd.go none) cnt =
      some (none, pool.set level g1, cnt) from by rw [srch]]

set_option maxRecDepth 1000000 in
/-- Witness for C7 at concrete inputs: digit-order unfolding on the
all-blank grid, skipping a non-candidate, and the backtrack increment on a
failing fill. -/
theorem claim_C7_witness :
    (srch 4 [] 0 (.go (some (List.replicate 81 511))) 0 =
      srch 3 [] 0 (.tryd (List.replicate 81 511) 0 DIGITS) 0) ∧
    (srch 3 [] 0 (.tryd (List.replicate 81 1) 0 (4 :: [])) 5 =
      srch 2 [] 0 (.tryd (List.replicate 81 1) 0 []) 5) ∧
    (srch 7 pool0 0 (.tryd w7grid 0 (1 :: [])) 0 =
      srch 6 (pool0.set 0 w7fail) 0 (.tryd w7grid 0 []) 1) :=
  ⟨claim_C7.2.1 3 [] 0 (List.replicate 81 511) 0 0 (by rfl),
    claim_C7.2.2.1 2 [] 0 (List.replicate 81 1) 0 4 [] 5 (by decide),
    claim_C7.2.2.2.2.2 5 pool0 0 w7grid w7fail 0 1 [] 0 (by decide)
      (by simp [pool0]) (by rfl)⟩

/-- C8: `fill(grid, s, d)` fails and leaves the grid untouched when d is
not currently a candidate of cell s; otherwise it sets cell s to exactly
the single-bit set of d and runs `eliminate` for d over the list of s's
peers (20 of them for every real square), returning failure as soon as one
elimination fails and the final grid with success when all succeed; on
success cell s still holds exactly d. -/
theorem claim_C8 :
    (∀ (g : List Nat) (s d : Nat), g.getD s 0 &&& d = 0 → fill g s d = some (g, false)) ∧
    (∀ (f : Nat) (g : List Nat) (s d : Nat), g.getD s 0 &&& d ≠ 0 →
      prop (f + 1) (.fil s d) g = prop f (.elimL (PEERS s) d) (g.set s d)) ∧
    (∀ s, s < 81 → (PEERS s).length = 20) ∧
    (∀ (f : Nat) (g : List Nat) (d : Nat), prop (f + 1) (.elimL [] d) g = some (g, true)) ∧
    (∀ (f : Nat) (g g1 : List Nat) (p : Nat) (ps : List Nat) (d : Nat),
      prop f (.elim p d) g = some (g1, false) →
      prop (f + 1) (.elimL (p :: ps) d) g = some (g1, false)) ∧
    (∀ (f : Nat) (g g1 : List Nat) (p : Nat) (ps : List Nat) (d : Nat),
      prop f (.elim p d) g = some (g1, true) →
      prop (f + 1) (.elimL (p :: ps) d) g = prop f (.elimL ps d) g1) ∧
    (∀ (f : Nat) (g g2 : List Nat) (s d : Nat), okDigit d → gridOK g →
      prop f (.fil s d) g = some (g2, true) → g2.getD s 0 = d) := by
  refine ⟨?_, ?_, fun s hs => PEERS_len s hs, ?_, ?_, ?_, ?_⟩
  · intro g s d hguard
    show prop FUEL (.fil s d) g = some (g, false)
    rw [show FUEL = 1999999 + 1 from rfl, prop, if_pos hguard]
  · intro f g s d hguard
    rw [prop, if_neg hguard, PEERS_T_getD]
  · intro f g d
    rw [prop]
  · intro f g g1 p ps d h
    rw [prop, h]
  · intro f g g1 p ps d h
    rw [prop, h]
  · intro f g g2 s d hd hg h
    have hguard := fil_true_guard f g g2 s d h
    have hslt : s < g.length := lt_length_of_getD_ne_zero g s (by
      intro h0; apply hguard; rw [h0]; simp)
    have hp := pres f (.fil s d) g g2 hd hg h
    simp only [base] at hp
    have hself : (g.set s d).getD s 0 = d := getD_set_self g s d hslt
    have hndd : NUM_DIGITS d = 1 := by
      rcases hd with ⟨k, hk, rfl⟩; exact ND_single k hk
    have := hp s (by rw [hself]; exact hndd)
    rw [this, hself]

set_option maxRecDepth 1000000 in
/-- Witness for C8 at concrete inputs: guard failure, the peer-elimination
unfolding, the 20-peer count, a failing elimination aborting the loop, and
a successful fill leaving the digit in place. -/
theorem claim_C8_witness :
    fill (List.replicate 81 0) 0 1 = some (List.replicate 81 0, false) ∧
    (prop 6 (.fil 0 1) (List.replicate 81 511) =
      prop 5 (.elimL (PEERS 0) 1) ((List.replicate 81 511).set 0 1)) ∧
    (PEERS 7).length = 20 ∧
    (prop 10 (.elimL (1 :: []) 1) w7grid = some (w8fail, false)) ∧
    w8grid.getD 1 0 = 2 :=
  ⟨claim_C8.1 (List.replicate 81 0) 0 1 (by decide),
    claim_C8.2.1 5 (List.replicate 81 511) 0 1 (by decide),
    claim_C8.2.2.1 7 (by omega),
    claim_C8.2.2.2.2.1 9 w7grid w8fail 1 [] 1 (by rfl),
    claim_C8.2.2.2.2.2.2 FUEL (List.replicate 81 511) w8grid 1 2 ⟨1, by omega, rfl⟩
      gridOK_replicate (by rfl)⟩

theorem and_mod_land (g : Nat) : g &&& 65535 = g % 65536 := by
  have h : (65535 : Nat) = 2 ^ 16 - 1 := by norm_num
  rw [h, Nat.and_pow_two_sub_one_eq_mod]

theorem shiftRight16 (v p : Nat) (hv : v < 65536) : (v + 65536 * p) >>> 16 = p := by
  rw [Nat.shiftRight_eq_div_pow]
  have h : (2 : Nat) ^ 16 = 65536 := by norm_num
  rw [h]
  rw [Nat.add_mul_div_left _ _ (by norm_num : (0:Nat) < 65536)]
  rw [Nat.div_eq_of_lt hv]
  omega

theorem getCell_pack (l : List Nat) (hb : ∀ x ∈ l, x < 65536) :
    ∀ s, getCell (pack l) s = l.getD s 0 := by
  induction l with
  | nil =>
    intro s
    show ((pack []) >>> (16 * s)) &&& 65535 = _
    rw [show pack [] = 0 from rfl]
    simp
  | cons v rest ih =>
    intro s
    have hv : v < 65536 := hb v (List.mem_cons_self _ _)
    have hbr : ∀ x ∈ rest, x < 65536 := fun x hx => hb x (List.mem_cons_of_mem _ hx)
    cases s with
    | zero =>
      show ((pack (v :: rest)) >>> (16 * 0)) &&& 65535 = v
      rw [Nat.mul_zero, Nat.shiftRight_zero, and_mod_land]
      rw [show pack (v :: rest) = v + 65536 * pack rest from rfl]
      omega
    | succ s =>
      show ((pack (v :: rest)) >>> (16 * (s + 1))) &&& 65535 = rest.getD s 0
      rw [show 16 * (s + 1) = 16 + 16 * s from by ring]
      rw [Nat.shiftRight_add]
      rw [show pack (v :: rest) = v + 65536 * pack rest from rfl]
      rw [shiftRight16 v (pack rest) hv]
      exact ih hbr s

theorem getCell_shl_le (g s : Nat) : (getCell g s) <<< (16 * s) ≤ g := by
  show ((g >>> (16 * s)) &&& 65535) <<< (16 * s) ≤ g
  rw [Nat.shiftLeft_eq]
  calc ((g >>> (16 * s)) &&& 65535) * 2 ^ (16 * s)
      ≤ (g >>> (16 * s)) * 2 ^ (16 * s) :=
        Nat.mul_le_mul_right _ (Nat.and_le_left)
    _ ≤ g := by
        rw [Nat.shiftRight_eq_div_pow]
        exact Nat.div_mul_le_self g _

theorem setCell_pack (l : List Nat) (hb : ∀ x ∈ l, x < 65536) :
    ∀ (s v : Nat), s < l.length → setCell (pack l) s v = pack (l.set s v) := by
  induction l with
  | nil => intro s v h; simp at h
  | cons w rest ih =>
    intro s v hs
    have hw : w < 65536 := hb w (List.mem_cons_self _ _)
    have hbr : ∀ x ∈ rest, x < 65536 := fun x hx => hb x (List.mem_cons_of_mem _ hx)
    cases s with
    | zero =>
      show pack (w :: rest) - (getCell (pack (w :: rest)) 0 <<< (16 * 0)) +
          (v <<< (16 * 0)) = pack ((w :: rest).set 0 v)
      rw [getCell_pack (w :: rest) hb 0]
      rw [Nat.mul_zero, Nat.shiftLeft_zero, Nat.shiftLeft_zero]
      rw [show (w :: rest).getD 0 0 = w from rfl]
      rw [show (w :: rest).set 0 v = v :: rest from rfl]
      rw [show pack (w :: rest) = w + 65536 * pack rest from rfl]
      rw [show pack (v :: rest) = v + 65536 * pack rest from rfl]
      omega
    | succ s =>
      have hsl : s < rest.length := by simpa using hs
      show pack (w :: rest) - (getCell (pack (w :: rest)) (s + 1) <<< (16 * (s + 1))) +
          (v <<< (16 * (s + 1))) = pack ((w :: rest).set (s + 1) v)
      have hgc : getCell (pack (w :: rest)) (s + 1) = getCell (pack rest) s := by
        show ((pack (w :: rest)) >>> (16 * (s + 1))) &&& 65535 = _
        rw [show 16 * (s + 1) = 16 + 16 * s from by ring, Nat.shiftRight_add]
        rw [show pack (w :: rest) = w + 65536 * pack rest from rfl]
        rw [shiftRight16 w (pack rest) hw]
        rfl
      rw [hgc]
      have hshl : ∀ x : Nat, x <<< (16 * (s + 1)) = 65536 * (x <<< (16 * s)) := by
        intro x
        rw [Nat.shiftLeft_eq, Nat.shiftLeft_eq]
        rw [show 16 * (s + 1) = 16 * s + 16 from by ring]
        rw [Nat.pow_add]
        ring
      rw [hshl, hshl]
      rw [show (w :: rest).set (s + 1) v = w :: rest.set s v from rfl]
      rw [show pack (w :: rest) = w + 65536 * pack rest from rfl]
      rw [show pack (w :: rest.set s v) = w + 65536 * pack (rest.set s v) from rfl]
      rw [← ih hbr s v hsl]
      show w + 65536 * pack rest - 65536 * (getCell (pack rest) s <<< (16 * s)) +
          65536 * (v <<< (16 * s)) =
        w + 65536 * (pack rest - (getCell (pack rest) s <<< (16 * s)) + (v <<< (16 * s)))
      have hle := getCell_shl_le (pack rest) s
      omega

theorem pack_inj (l1 : List Nat) : ∀ (l2 : List Nat), (∀ x ∈ l1, x < 65536) →
    (∀ x ∈ l2, x < 65536) → l1.length = l2.length → pack l1 = pack l2 → l1 = l2 := by
  induction l1 with
  | nil =>
    intro l2 _ _ hlen _
    cases l2 with
    | nil => rfl
    | cons _ _ => simp at hlen
  | cons v1 r1 ih =>
    intro l2 hb1 hb2 hlen hp
    cases l2 with
    | nil => simp at hlen
    | cons v2 r2 =>
      have hv1 : v1 < 65536 := hb1 v1 (List.mem_cons_self _ _)
      have hv2 : v2 < 65536 := hb2 v2 (List.mem_cons_self _ _)
      rw [show pack (v1 :: r1) = v1 + 65536 * pack r1 from rfl,
        show pack (v2 :: r2) = v2 + 65536 * pack r2 from rfl] at hp
      have hv : v1 = v2 := by omega
      have hr : pack r1 = pack r2 := by omega
      rw [hv, ih r2 (fun x hx => hb1 x (List.mem_cons_of_mem _ hx))
        (fun x hx => hb2 x (List.mem_cons_of_mem _ hx)) (by simpa using hlen) hr]

theorem gridOK_lt (g : List Nat) (hg : gridOK g) : ∀ x ∈ g, x < 65536 :=
  fun x hx => by have := hg.2 x hx; omega

theorem dscanN_sim (g : List Nat) (hb : ∀ x ∈ g, x < 65536) (d : Nat) :
    ∀ (u : List Nat) (acc : Nat × Nat), dscanN (pack g) d u acc = dscan g d u acc := by
  intro u
  induction u with
  | nil => intro acc; rfl
  | cons s2 rest ih =>
    intro acc
    rcases acc with ⟨dPlaces, dplace⟩
    rw [dscanN, dscan, getCell_pack g hb s2]
    by_cases hbit : (g.getD s2 0) &&& d ≠ 0
    · rw [if_pos hbit, if_pos hbit]
      by_cases hc : dPlaces + 1 > 1
      · rw [if_pos hc, if_pos hc]
      · rw [if_neg hc, if_neg hc, ih]
    · rw [if_neg hbit, if_neg hbit, ih]

/-- The packed propagation engine computes the packed image of the
list-based one. -/
theorem propN_sim : ∀ (f : Nat) (cmd : PCmd) (g : List Nat), cmdOK cmd → gridOK g →
    propN f cmd (pack g) = (prop f cmd g).map (fun r => (pack r.1, r.2)) := by
  intro f
  induction f with
  | zero => intro cmd g _ _; rfl
  | succ f ih =>
    intro cmd g hc hg
    have hb : ∀ x ∈ g, x < 65536 := gridOK_lt g hg
    cases cmd with
    | fil s d =>
      rw [prop, propN, getCell_pack g hb s]
      by_cases hguard : (g.getD s 0) &&& d = 0
      · rw [if_pos hguard, if_pos hguard]; rfl
      · rw [if_neg hguard, if_neg hguard]
        have hslt : s < g.length := lt_length_of_getD_ne_zero g s (by
          intro h0; apply hguard; rw [h0]; simp)
        rw [setCell_pack g hb s d hslt]
        exact ih _ _ ⟨hc, peersT_len s⟩ (gridOK_set g s d hg (okDigit_le d hc))
    | elimL ps d =>
      rcases hc with ⟨hd, hlen⟩
      cases ps with
      | nil => rw [prop, propN]; rfl
      | cons p ps =>
        rw [prop, propN]
        rw [ih (.elim p d) g hd hg]
        cases h1 : prop f (.elim p d) g with
        | none => rfl
        | some r =>
          rcases r with ⟨g1, b1⟩
          have hg1 : gridOK g1 := propOK f (.elim p d) g g1 b1 hd hg h1
          cases b1 with
          | false => rfl
          | true =>
            show propN f (.elimL ps d) (pack g1) = _
            rw [ih (.elimL ps d) g1 ⟨hd, by simp at hlen; omega⟩ hg1]
    | elim s d =>
      rw [prop, propN, getCell_pack g hb s]
      by_cases hguard : (g.getD s 0) &&& d = 0
      · rw [if_pos hguard, if_pos hguard]; rfl
      · rw [if_neg hguard, if_neg hguard]
        have hslt : s < g.length := lt_length_of_getD_ne_zero g s (by
          intro h0; apply hguard; rw [h0]; simp)
        have hg1 : gridOK (g.set s (g.getD s 0 - d)) :=
          gridOK_set g s _ hg (by have := gridOK_getD_le g hg s; omega)
        rw [setCell_pack g hb s _ hslt]
        rw [ih (.arc s) _ trivial hg1]
        cases h1 : prop f (.arc s) (g.set s (g.getD s 0 - d)) with
        | none => rfl
        | some r =>
          rcases r with ⟨g2, b2⟩
          have hg2 : gridOK g2 := propOK f (.arc s) _ g2 b2 trivial hg1 h1
          cases b2 with
          | false => rfl
          | true =>
            show propN f (.dual s d) (pack g2) = _
            rw [ih (.dual s d) g2 hc hg2]
    | arc s =>
      rw [prop, propN, getCell_pack g hb s]
      by_cases h2 : 2 ≤ NUM_DIGITS (g.getD s 0)
      · rw [if_pos h2, if_pos h2]; rfl
      · rw [if_neg h2, if_neg h2]
        by_cases h1 : NUM_DIGITS (g.getD s 0) = 1
        · rw [if_pos h1, if_pos h1]
          have hok : okDigit (g.getD s 0) :=
            (ND_eq_one_iff _ (gridOK_getD_le g hg s)).mp h1
          exact ih (.fil s (g.getD s 0)) g hok hg
        · rw [if_neg h1, if_neg h1]; rfl
    | dual s d =>
      rw [prop, propN]
      exact ih (.dualL (UNITS_T.getD s []) d) g ⟨hc, unitsT_len s⟩ hg
    | dualL us d =>
      rcases hc with ⟨hd, hlen⟩
      cases us with
      | nil => rw [prop, propN]; rfl
      | cons u us =>
        rw [prop, propN, dscanN_sim g hb d u (0, 0)]
        rcases hscan : dscan g d u (0, 0) with ⟨n, pl⟩
        match n with
        | 0 => rfl
        | 1 =>
          show (match propN f (.fil pl d) (pack g) with
            | none => none
            | some (grid1, false) => some (grid1, false)
            | some (grid1, true) => propN f (.dualL us d) grid1) =
            Option.map (fun r => (pack r.1, r.2)) (match prop f (.fil pl d) g with
            | none => none
            | some (grid1, false) => some (grid1, false)
            | some (grid1, true) => prop f (.dualL us d) grid1)
          rw [ih (.fil pl d) g hd hg]
          cases h1 : prop f (.fil pl d) g with
          | none => rfl
          | some r =>
            rcases r with ⟨g1, b1⟩
            have hg1 : gridOK g1 := propOK f (.fil pl d) g g1 b1 hd hg h1
            cases b1 with
            | false => rfl
            | true =>
              show propN f (.dualL us d) (pack g1) = _
              rw [ih (.dualL us d) g1 ⟨hd, by simp at hlen; omega⟩ hg1]
        | n + 2 =>
          show propN f (.dualL us d) (pack g) = _
          rw [ih (.dualL us d) g ⟨hd, by simp at hlen; omega⟩ hg]
          rfl

theorem ssGoN_sim (g : List Nat) (hb : ∀ x ∈ g, x < 65536) :
    ∀ (l : List Nat) (best : Option Nat) (mint : Nat),
    ssGoN (pack g) l best mint = ssGo g l best mint := by
  intro l
  induction l with
  | nil => intro best mint; rfl
  | cons s rest ih =>
    intro best mint
    rw [ssGoN, ssGo, getCell_pack g hb s]
    by_cases h2 : NUM_DIGITS (g.getD s 0) = 2
    · simp only [h2, reduceIte]
    · rw [if_neg h2, if_neg h2]
      by_cases h3 : 1 < NUM_DIGITS (g.getD s 0) ∧ NUM_DIGITS (g.getD s 0) < mint
      · rw [if_pos h3, if_pos h3, ih]
      · rw [if_neg h3, if_neg h3, ih]

theorem selectSquareN_sim (g : List Nat) (hb : ∀ x ∈ g, x < 65536) :
    selectSquareN (pack g) = selectSquare g :=
  ssGoN_sim g hb SQUARES none 10

/-- The packed search computes the packed image of the list-based one. -/
theorem srchN_sim : ∀ (f : Nat) (pool : List (List Nat)) (level : Nat) (cmd : SCmd)
    (cnt : Nat), cmdSOK cmd →
    srchN f (pool.map pack) level (scmdN cmd) cnt =
      (srch f pool level cmd cnt).map (fun r => (r.1.map pack, r.2.1.map pack, r.2.2)) := by
  intro f
  induction f with
  | zero => intro pool level cmd cnt _; rfl
  | succ f ih =>
    intro pool level cmd cnt hc
    cases cmd with
    | go og =>
      cases og with
      | none => rfl
      | some g =>
        have hb : ∀ x ∈ g, x < 65536 := gridOK_lt g hc
        rw [show scmdN (.go (some g)) = .go (some (pack g)) from rfl]
        rw [srch, srchN, selectSquareN_sim g hb]
        cases hsel : selectSquare g with
        | none => rfl
        | some s =>
          exact ih pool level (.tryd g s DIGITS) cnt ⟨hc, digits_ok⟩
    | tryd g s ds =>
      rcases hc with ⟨hg, hds⟩
      have hb : ∀ x ∈ g, x < 65536 := gridOK_lt g hg
      cases ds with
      | nil => rfl
      | cons d ds =>
        rw [show scmdN (.tryd g s (d :: ds)) = .tryd (pack g) s (d :: ds) from rfl]
        rw [srch, srchN, getCell_pack g hb s]
        by_cases hbit : d &&& g.getD s 0 ≠ 0
        · rw [if_pos hbit, if_pos hbit]
          rw [List.length_map]
          by_cases hlev : level < pool.length
          · rw [if_pos hlev, if_pos hlev]
            have hdok : okDigit d := hds d (List.mem_cons_self _ _)
            rw [show fillN (pack g) s d = (fill g s d).map (fun r => (pack r.1, r.2)) from
              propN_sim FUEL (.fil s d) g hdok hg]
            cases hfill : fill g s d with
            | none => rfl
            | some r =>
              rcases r with ⟨g1, b⟩
              have hg1 : gridOK g1 := propOK FUEL (.fil s d) g g1 b hdok hg hfill
              show (match srchN f ((pool.map pack).set level (pack g1)) (level + 1)
                  (.go (if b then some (pack g1) else none)) cnt with
                | none => none
                | some (some result, pool2, cnt2) => some (some result, pool2, cnt2)
                | some (none, pool2, cnt2) =>
                  srchN f pool2 level (.tryd (pack g) s ds) (cnt2 + 1)) =
                Option.map _ (match srch f (pool.set level g1) (level + 1)
                  (.go (if b then some g1 else none)) cnt with
                | none => none
                | some (some result, pool2, cnt2) => some (some result, pool2, cnt2)
                | some (none, pool2, cnt2) =>
                  srch f pool2 level (.tryd g s ds) (cnt2 + 1))
              have hmapset : (pool.map pack).set level (pack g1) =
                  (pool.set level g1).map pack := by
                rw [List.map_set]
              rw [hmapset]
              have hgo : srchN f ((pool.set level g1).map pack) (level + 1)
                  (.go (if b then some (pack g1) else none)) cnt =
                  (srch f (pool.set level g1) (level + 1)
                    (.go (if b then some g1 else none)) cnt).map
                    (fun r => (r.1.map pack, r.2.1.map pack, r.2.2)) := by
                cases b with
                | true =>
                  exact ih (pool.set level g1) (level + 1) (.go (some g1)) cnt hg1
                | false =>
                  exact ih (pool.set level g1) (level + 1) (.go none) cnt trivial
              rw [hgo]
              cases hdive : srch f (pool.set level g1) (level + 1)
                  (.go (if b then some g1 else none)) cnt with
              | none => rfl
              | some r2 =>
                rcases r2 with ⟨or, pool2, c2⟩
                cases or with
                | some rr => rfl
                | none =>
                  show srchN f (pool2.map pack) level (.tryd (pack g) s ds) (c2 + 1) = _
                  exact ih pool2 level (.tryd g s ds) (c2 + 1)
                    ⟨hg, fun x hx => hds x (List.mem_cons_of_mem _ hx)⟩
          · rw [if_neg hlev, if_neg hlev]; rfl
        · rw [if_neg hbit, if_neg hbit]
          exact ih pool level (.tryd g s ds) cnt
            ⟨hg, fun x hx => hds x (List.mem_cons_of_mem _ hx)⟩

theorem getD_mem (l : List Nat) (s : Nat) (h : s < l.length) : l.getD s 0 ∈ l := by
  induction l generalizing s with
  | nil => simp at h
  | cons a t ih =>
    cases s with
    | zero => exact List.mem_cons_self _ _
    | succ s =>
      simp only [List.getD_cons_succ]
      exact List.mem_cons_of_mem _ (ih s (by simpa using h))

theorem initialize_fold (p : List Nat)
    (hp : ∀ s, s < 81 → okDigit (p.getD s 0) ∨ p.getD s 0 = ALL_DIGITS) :
    ∀ (sq : List Nat) (g : List Nat), (∀ s ∈ sq, s < 81) → gridOK g →
    (sq.foldl
        (fun grid s =>
          if p.getD s 0 ≠ ALL_DIGITS then
            match fillN grid s (p.getD s 0) with
            | none => grid
            | some (grid1, _) => grid1
          else grid)
        (pack g) =
      pack (sq.foldl
        (fun grid s =>
          if p.getD s 0 ≠ ALL_DIGITS then
            match fill grid s (p.getD s 0) with
            | none => grid
            | some (grid1, _) => grid1
          else grid)
        g)) ∧
    gridOK (sq.foldl
        (fun grid s =>
          if p.getD s 0 ≠ ALL_DIGITS then
            match fill grid s (p.getD s 0) with
            | none => grid
            | some (grid1, _) => grid1
          else grid)
        g) := by
  intro sq
  induction sq with
  | nil => intro g _ hg; exact ⟨rfl, hg⟩
  | cons s sq ih =>
    intro g hsq hg
    rw [List.foldl_cons, List.foldl_cons]
    by_cases hgiven : p.getD s 0 ≠ ALL_DIGITS
    · rw [if_pos hgiven, if_pos hgiven]
      have hds : okDigit (p.getD s 0) := by
        rcases hp s (hsq s (List.mem_cons_self _ _)) with h | h
        · exact h
        · exact absurd h hgiven
      rw [show fillN (pack g) s (p.getD s 0) =
          (fill g s (p.getD s 0)).map (fun r => (pack r.1, r.2)) from
        propN_sim FUEL (.fil s (p.getD s 0)) g hds hg]
      cases hfill : fill g s (p.getD s 0) with
      | none =>
        exact ih g (fun t ht => hsq t (List.mem_cons_of_mem _ ht)) hg
      | some r =>
        rcases r with ⟨g1, b⟩
        have hg1 : gridOK g1 := propOK FUEL (.fil s (p.getD s 0)) g g1 b hds hg hfill
        exact ih g1 (fun t ht => hsq t (List.mem_cons_of_mem _ ht)) hg1
    · rw [if_neg hgiven, if_neg hgiven]
      exact ih g (fun t ht => hsq t (List.mem_cons_of_mem _ ht)) hg

theorem initializeGrid_sim (p : List Nat)
    (hp : ∀ s, s < 81 → okDigit (p.getD s 0) ∨ p.getD s 0 = ALL_DIGITS) :
    initializeGridN p = pack (initializeGrid p) ∧ gridOK (initializeGrid p) := by
  have hsq : ∀ s ∈ SQUARES, s < 81 := by
    intro s hs; simpa [SQUARES, List.mem_range] using hs
  have := initialize_fold p hp SQUARES (List.replicate 81 ALL_DIGITS) hsq
    (by exact gridOK_replicate)
  exact this

/-- The solution grid that `srch` reports is well-formed whenever the
grids in the command are. -/
theorem srch_bounded : ∀ (f : Nat) (pool : List (List Nat)) (level : Nat) (cmd : SCmd)
    (cnt : Nat) (r : List Nat) (pool2 : List (List Nat)) (c2 : Nat), cmdSOK cmd →
    srch f pool level cmd cnt = some (some r, pool2, c2) → gridOK r := by
  intro f
  induction f with
  | zero => intro pool level cmd cnt r pool2 c2 _ h; cases h
  | succ f ih =>
    intro pool level cmd cnt r pool2 c2 hc h
    cases cmd with
    | go og =>
      cases og with
      | none => rw [srch] at h; cases h
      | some g =>
        rw [srch] at h
        cases hsel : selectSquare g with
        | none =>
          rw [hsel] at h
          cases h
          exact hc
        | some s =>
          rw [hsel] at h
          exact ih pool level (.tryd g s DIGITS) cnt r pool2 c2 ⟨hc, digits_ok⟩ h
    | tryd g s ds =>
      rcases hc with ⟨hg, hds⟩
      cases ds with
      | nil => rw [srch] at h; cases h
      | cons d ds =>
        rw [srch] at h
        by_cases hbit : d &&& g.getD s 0 ≠ 0
        · rw [if_pos hbit] at h
          by_cases hlev : level < pool.length
          · rw [if_pos hlev] at h
            have hdok : okDigit d := hds d (List.mem_cons_self _ _)
            cases hfill : fill g s d with
            | none => rw [hfill] at h; cases h
            | some fr =>
              rcases fr with ⟨g1, b⟩
              have hg1 : gridOK g1 := propOK FUEL (.fil s d) g g1 b hdok hg hfill
              rw [hfill] at h
              have h2 : (match srch f (pool.set level g1) (level + 1)
                  (.go (if b then some g1 else none)) cnt with
                | none => none
                | some (some result, pool2, cnt2) => some (some result, pool2, cnt2)
                | some (none, pool2, cnt2) =>
                  srch f pool2 level (.tryd g s ds) (cnt2 + 1)) =
                  some (some r, pool2, c2) := h
              cases hdive : srch f (pool.set level g1) (level + 1)
                  (.go (if b then some g1 else none)) cnt with
              | none => rw [hdive] at h2; cases h2
              | some r2 =>
                rcases r2 with ⟨or, poolx, cx⟩
                rw [hdive] at h2
                cases or with
                | some rr =>
                  cases h2
                  have hcs : cmdSOK (.go (if b then some g1 else none)) := by
                    cases b with
                    | true => exact hg1
                    | false => trivial
                  exact ih _ _ (.go (if b then some g1 else none)) cnt _ _ _ hcs hdive
                | none =>
                  exact ih poolx level (.tryd g s ds) (cx + 1) r pool2 c2
                    ⟨hg, fun x hx => hds x (List.mem_cons_of_mem _ hx)⟩ h2
          · rw [if_neg hlev] at h; cases h
        · rw [if_neg hbit] at h
          exact ih pool level (.tryd g s ds) cnt r pool2 c2
            ⟨hg, fun x hx => hds x (List.mem_cons_of_mem _ hx)⟩ h

theorem parse_entries (cs : List Char) (p : List Nat) (h : parseGrid cs = some p) :
    (∀ s, s < 81 → okDigit (p.getD s 0) ∨ p.getD s 0 = ALL_DIGITS) ∧ gridOK p := by
  rcases parseGo_some cs [] p h (by simp) with ⟨hlen, hall⟩
  constructor
  · intro s hs
    have hmem := getD_mem p s (by omega)
    rcases hall _ hmem with h1 | h1
    · exact Or.inl h1
    · exact Or.inr h1
  · refine ⟨hlen, ?_⟩
    intro x hx
    rcases hall x hx with ⟨k, hk, rfl⟩ | rfl
    · exact okDigit_le _ ⟨k, hk, rfl⟩
    · exact Nat.le_refl 511

theorem solvePuzzle_eq (p sol : List Nat)
    (hpOK : ∀ s, s < 81 → okDigit (p.getD s 0) ∨ p.getD s 0 = ALL_DIGITS)
    (hsolOK : gridOK sol)
    (hN : (srchN SFUEL (pool0.map pack) 0 (.go (some (initializeGridN p))) 0).map
        (fun r => r.1) = some (some (pack sol))) :
    (solvePuzzle p).map (fun r => r.1) = some (some sol) := by
  obtain ⟨hinit, hgOK⟩ := initializeGrid_sim p hpOK
  have hsim := srchN_sim SFUEL pool0 0 (.go (some (initializeGrid p))) 0 hgOK
  rw [hinit] at hN
  rw [show SCmdN.go (some (pack (initializeGrid p))) =
    scmdN (.go (some (initializeGrid p))) from rfl] at hN
  rw [hsim] at hN
  cases hX : srch SFUEL pool0 0 (SCmd.go (some (initializeGrid p))) 0 with
  | none => rw [hX] at hN; cases hN
  | some r =>
    rcases r with ⟨or, p2, c2⟩
    rw [hX] at hN
    have hN2 : some (or.map pack) = some (some (pack sol)) := hN
    injection hN2 with h3
    cases or with
    | none => cases h3
    | some sol2 =>
      injection h3 with h4
      have hbsol2 : gridOK sol2 :=
        srch_bounded SFUEL pool0 0 (.go (some (initializeGrid p))) 0 sol2 p2 c2 hgOK hX
      have heq : sol2 = sol := pack_inj sol2 sol (gridOK_lt _ hbsol2) (gridOK_lt _ hsolOK)
        (by rw [hbsol2.1, hsolOK.1]) h4
      show (srch SFUEL pool0 0 (SCmd.go (some (initializeGrid p))) 0).map
        (fun r => r.1) = some (some sol)
      rw [hX, heq]
      rfl

set_option maxRecDepth 10000000 in
set_option maxHeartbeats 10000000 in
/-- C9: parsing the canonical Norvig puzzle string, initializing, and
searching from depth 0 yields exactly the claimed solution grid
`norvigSol`, and `verify` accepts that solution against the original
puzzle. -/
theorem claim_C9 :
    parseGrid norvigStr.toList = some norvigPuz ∧
    (solvePuzzle norvigPuz).map (fun r => r.1) = some (some norvigSol) ∧
    verify (some norvigSol) norvigPuz = true := by
  have hparse : parseGrid norvigStr.toList = some norvigPuz := by rfl
  have hparse2 : parseGrid solStr.toList = some norvigSol := by rfl
  obtain ⟨hpOK, _⟩ := parse_entries _ _ hparse
  obtain ⟨_, hsolOK⟩ := parse_entries _ _ hparse2
  refine ⟨hparse, ?_, by rfl⟩
  refine solvePuzzle_eq norvigPuz norvigSol hpOK hsolOK ?_
  rfl

set_option maxRecDepth 10000000 in
set_option maxHeartbeats 10000000 in
/-- C3: the claim says an internally contradictory puzzle (the same digit
twice in one row) must yield the explicit no-solution result and never
crash.  `contraPuz` gives digit 4 (bitset 8) to both cells 0 and 1 of
row 0; because `initialize` drops the failure of the second given's fill
(see C2), solving returns the full solved grid `norvigSol` -- whose cell 1
is bitset 128 (digit 8), silently overriding the given -- instead of nil.
The run completes normally (`some _`, never the embedding's crash marker),
but the claimed nil result is wrong: recorded as a code bug. -/
theorem claim_C3 :
    parseGrid contraStr.toList = some contraPuz ∧
    contraPuz.getD 0 0 = 8 ∧ contraPuz.getD 1 0 = 8 ∧
    (solvePuzzle contraPuz).map (fun r => r.1) = some (some norvigSol) ∧
    norvigSol.getD 1 0 = 128 := by
  have hparse : parseGrid contraStr.toList = some contraPuz := by rfl
  have hparse2 : parseGrid solStr.toList = some norvigSol := by rfl
  obtain ⟨hpOK, _⟩ := parse_entries _ _ hparse
  obtain ⟨_, hsolOK⟩ := parse_entries _ _ hparse2
  refine ⟨hparse, by rfl, by rfl, ?_, by rfl⟩
  refine solvePuzzle_eq contraPuz norvigSol hpOK hsolOK ?_
  rfl

set_option maxRecDepth 1000000 in
set_option maxHeartbeats 4000000 in
/-- C1: the claim says `verify` accepts a grid only if every one of the 27
units, OR-ed over its own 9 cells, gives 511 -- and in particular rejects any
all-single-digit grid that repeats a digit inside some column.  The Go unit
loop is `for s := range u`, which ranges over the INDICES 0..8 of the unit,
so the code ORs grid[0..8] for every unit instead: `verify` accepts
`badGrid`, which holds digit 1 in both cells 0 and 9 of column 0
(`ALL_UNITS` entry 9) although every cell is a single digit and no given
constrains it.  This contradicts the claim and the code's own comment
("Check that each unit is a permutation of digits"), so the claim is
recorded as a code bug. -/
theorem claim_C1 :
    verify (some badGrid) blankPuzzle = true ∧
    badGrid.getD 0 0 = 1 ∧ badGrid.getD 9 0 = 1 ∧
    member 0 (ALL_UNITS.getD 9 []) = true ∧ member 9 (ALL_UNITS.getD 9 []) = true ∧
    (List.range 81).all (fun i => NUM_DIGITS (badGrid.getD i 0) == 1) = true :=
  ⟨rfl, rfl, rfl, rfl, rfl, rfl⟩

set_option maxRecDepth 1000000 in
set_option maxHeartbeats 4000000 in
/-- C2: the claim says that when a `fill` of a given fails during
`initialize`, the function returns the unsolvable-grid sentinel and stops
filling.  The Go code ignores the result of `fill` (unlike Norvig's Java
`grid = fill(grid, s, puzzle[s])`), so neither happens: for the
contradictory puzzle `pBad` ("113000...", digit 1 given twice in row 0) the
second given's fill fails, yet `initialize` continues and fills the third
given -- cell 2 of the result is the single-digit bitset 4 -- and cell 1 is
left with 7 candidates (bitset 506), the dropped contradiction.  The last
conjunct exhibits the failing second fill itself.  Recorded as a code
bug. -/
theorem claim_C2 :
    (parseGrid pBadStr.toList).isSome = true ∧
    (initializeGrid pBad).getD 1 0 = 506 ∧
    (initializeGrid pBad).getD 2 0 = 4 ∧
    NUM_DIGITS 506 = 7 ∧ NUM_DIGITS 4 = 1 ∧
    (fill ((fill (List.replicate 81 511) 0 1).getD (List.replicate 81 511, false)).1 1 1).map
      (fun r => r.2) = some false :=
  ⟨rfl, rfl, rfl, rfl, rfl, rfl⟩

/-- C4: `parseGrid` returns a FormatError (none) if and only if the line
holds fewer than 81 meaningful characters (digits 1-9 and the blanks 0 and
.), or some digit/blank character occurs after the 81st meaningful
character; all other characters are ignored. -/
theorem claim_C4 : ∀ cs : List Char,
    parseGrid cs = none ↔
      (cs.countP meaningfulChar < 81 ∨ (dropAfterM 81 cs).any meaningfulChar = true) := by
  intro cs
  have h := parseGo_none_iff cs [] (by simp)
  simpa using h

/-- C10: every grid that `parseGrid` returns has exactly 81 entries, each
of which is either one of the nine single-bit digit masks 1<<0 .. 1<<8 or
the universal bitset 511. -/
theorem claim_C10 : ∀ (cs : List Char) (g : List Nat), parseGrid cs = some g →
    g.length = 81 ∧ ∀ x ∈ g, (∃ k, k < 9 ∧ x = 1 <<< k) ∨ x = 511 := by
  intro cs g h
  exact parseGo_some cs [] g h (by simp)

set_option maxRecDepth 1000000 in
/-- Witness for C10 at a concrete input: the parsed Norvig puzzle has 81
entries. -/
theorem claim_C10_witness : norvigPuz.length = 81 :=
  (claim_C10 norvigStr.toList norvigPuz (by rfl)).1

/-- C6: `selectSquare` returns -1 (none) exactly when no cell has more
than one candidate, and `search` then returns the grid as-is as solved;
otherwise the returned square has at least two candidates, no cell with at
least two candidates has fewer, and every earlier such cell has strictly
more -- i.e. it is the minimum-candidate cell with ties broken by lowest
index (returning the first cell found with exactly 2 candidates without
scanning further agrees with this characterisation, since 2 is the least
possible count). -/
theorem claim_C6 : ∀ g : List Nat,
    (selectSquare g = none ↔ ∀ t, t < 81 → NUM_DIGITS (g.getD t 0) ≤ 1) ∧
    (∀ s, selectSquare g = some s →
      s < 81 ∧ 2 ≤ NUM_DIGITS (g.getD s 0) ∧
      (∀ t, t < 81 → 2 ≤ NUM_DIGITS (g.getD t 0) →
        NUM_DIGITS (g.getD s 0) ≤ NUM_DIGITS (g.getD t 0)) ∧
      (∀ t, t < s → 2 ≤ NUM_DIGITS (g.getD t 0) →
        NUM_DIGITS (g.getD s 0) < NUM_DIGITS (g.getD t 0))) ∧
    (∀ (f : Nat) (pool : List (List Nat)) (level cnt : Nat), selectSquare g = none →
      srch (f + 1) pool level (.go (some g)) cnt = some (some g, pool, cnt)) := by
  intro g
  refine ⟨selectSquare_none_iff g, fun s hs => selectSquare_some_spec g s hs, ?_⟩
  intro f pool level cnt hsel
  rw [srch, hsel]

set_option maxRecDepth 1000000 in
/-- Witness for C6 at concrete inputs: the all-blank grid selects cell 0
(nine candidates everywhere), and a fully determined grid makes `search`
return it unchanged. -/
theorem claim_C6_witness :
    (0 < 81 ∧ 2 ≤ NUM_DIGITS ((List.replicate 81 (511 : Nat)).getD 0 0)) ∧
    srch 1 pool0 0 (.go (some (List.replicate 81 (1 : Nat)))) 0 =
      some (some (List.replicate 81 1), pool0, 0) :=
  ⟨⟨((claim_C6 (List.replicate 81 511)).2.1 0 (by rfl)).1,
      ((claim_C6 (List.replicate 81 511)).2.1 0 (by rfl)).2.1⟩,
    (claim_C6 (List.replicate 81 1)).2.2 0 pool0 0 0 (by rfl)⟩

end SudokuCSP
